import Mathlib

/-!
# wifi-print: the node graph of `src/node/pb-model.go`

A shallow embedding of the Go functions `createNodeFromBeacon`,
`updateBufferedStrength`, `updateBufferedTimes`, `containsAssociation` and
`addNodeFromBeacon`, followed by theorems about them.

Modelling decisions.

* Go `*Node` values are addresses.  The Node objects live in a heap
  (`NodeList.heap`, a total function from addresses to nodes) and `&x`
  of a fresh local allocates the next free address (`NodeList.next`).
  Pointer comparison `v == b` is comparison of addresses.
* The Go map `map[string]*Node` is an association list read with the first
  matching entry; a store puts the new entry in front and drops older
  entries of the same key.
* Go `int` (`timesSeen`) is the 64 bit two's complement integer, so `++`
  wraps (`wrapInt`).  `int8` samples are only stored, never computed with,
  and are carried as integers.
* Slices are lists (`nil` and the empty slice are both `[]`).  No slice of
  this program shares its backing array with another live slice.
* Logging (`log.Printf`, `log.Println`, `fmt.Printf`) and `writeToDatabase`,
  which only prints, are output and are not part of the state.  The
  `debugOn` argument only selects logging and is dropped.
* `pBuffer`, a package level variable that is not declared in the two
  source files, is a parameter.
-/

namespace WifiPrint

/-- The Go struct `Node` (pb-model.go, lines 10-24).  The default values are
Go's zero values.  A `*Node` is the address of the object, a natural number. -/
structure Node where
  associations : List Nat := []
  knownAs : String := ""
  ssid : String := ""
  bssid : List String := []
  nodeType : String := ""
  transmitterAddresses : List String := []
  timesSeen : Int := 0
  strength : List Int := []
  seen : List String := []
  firstSeen : String := ""
  deriving DecidableEq, Repr

/-- Modelled from the spec: the declaration of the struct `BeaconNode` is not
in the source files.  The fields are the six that `pb-model.go` reads, which
are the six fields of the inbound event of the specification
(timestamp, network name, hardware address, transmitter address,
classification, signal strength). -/
structure BeaconNode where
  timestamp : String := ""
  ssid : String := ""
  bssid : String := ""
  transmitter : String := ""
  ptype : String := ""
  sigStrength : Int := 0
  deriving DecidableEq, Repr

/-- The Go struct `NodeList` (lines 26-28) together with the part of the Go
heap that holds `Node` objects: `heap p` is the object at address `p`, and
the addresses below `next` are the allocated ones. -/
structure NodeList where
  nodes : List (String × Nat) := []
  heap : Nat → Node := fun _ => {}
  next : Nat := 0

/-- Two's complement wrap of a Go `int` (64 bits). -/
def wrapInt (x : Int) : Int := (x + 2 ^ 63) % 2 ^ 64 - 2 ^ 63

/-- The Go function `newGraph` (lines 30-39): an empty map, nothing allocated. -/
def newGraph : NodeList := {}

/-- Map read `graph.nodes[k]`: `some p` when the key is present (`ok`). -/
def NodeList.get (graph : NodeList) (k : String) : Option Nat :=
  graph.nodes.lookup k

/-- Map store `graph.nodes[k] = p`. -/
def NodeList.put (graph : NodeList) (k : String) (p : Nat) : NodeList :=
  { graph with nodes := (k, p) :: graph.nodes.filter (fun e => e.1 != k) }

/-- Allocation of a fresh `Node` object holding `n`; returns the new state
and the address of the object. -/
def NodeList.alloc (graph : NodeList) (n : Node) : NodeList × Nat :=
  ({ graph with heap := Function.update graph.heap graph.next n,
                next := graph.next + 1 }, graph.next)

/-- Write through a pointer: the object at `p` becomes `n`. -/
def NodeList.store (graph : NodeList) (p : Nat) (n : Node) : NodeList :=
  { graph with heap := Function.update graph.heap p n }

/-- The Go function `updateBufferedStrength` (lines 173-194). -/
def updateBufferedStrength (strengths : List Int) (s : Int) : List Int :=
  if strengths.length > 0 then
    strengths.tail ++ [s]
  else
    strengths ++ [s]

/-- The Go function `updateBufferedTimes` (lines 197-214). -/
def updateBufferedTimes (times : List String) (t : String) : List String :=
  if times.length > 0 then
    times.tail ++ [t]
  else
    times ++ [t]

/-- The Go function `createNodeFromBeacon` (lines 125-170). -/
def createNodeFromBeacon (pBuffer : Nat) (beacon : BeaconNode) : Node :=
  let n : Node := {}
  let n := { n with strength := List.replicate pBuffer 0 }
  let n := { n with seen := List.replicate pBuffer "" }
  let n :=
    if beacon.ptype = "MgmtProbeReq" then { n with knownAs := beacon.transmitter }
    else if beacon.ptype = "MgmtBeacon" then { n with knownAs := beacon.ssid }
    else { n with knownAs := beacon.ssid }
  let n := { n with ssid := beacon.ssid }
  let n := { n with bssid := n.bssid ++ [beacon.bssid] }
  let n := { n with nodeType := beacon.ptype }
  let n := { n with transmitterAddresses := n.transmitterAddresses ++ [beacon.transmitter] }
  let n := { n with timesSeen := 1 }
  let n := { n with strength := updateBufferedStrength n.strength beacon.sigStrength }
  let n := { n with seen := updateBufferedTimes n.seen beacon.timestamp }
  let n := { n with firstSeen := beacon.timestamp }
  n

/-- The Go function `containsAssociation` (lines 217-224): is the address `b`
among the addresses in the `associations` of the object at `a`. -/
def containsAssociation (graph : NodeList) (a b : Nat) : Bool :=
  (graph.heap a).associations.any (fun v => v == b)

/-- Lines 49-70 of `addNodeFromBeacon`: look the candidate up by `knownAs`;
update the node found, or insert the candidate.  Returns the new state and
`val`, the address of the working node. -/
def upsert (graph : NodeList) (inNode : BeaconNode) (newNode : Node) : NodeList × Nat :=
  match graph.get newNode.knownAs with
  | some val =>
    let v := graph.heap val
    let v := { v with timesSeen := wrapInt (v.timesSeen + 1) }
    let v := { v with strength := updateBufferedStrength v.strength inNode.sigStrength }
    let v := { v with seen := updateBufferedTimes v.seen inNode.timestamp }
    (graph.store val v, val)
  | none =>
    let (graph, p) := graph.alloc newNode
    let graph := graph.put newNode.knownAs p
    (graph, p)

/-- Lines 78-89: look the probed name up; when absent, allocate the skeleton
`Node{knownAs: newNode.ssid}` and store it under its `knownAs`. -/
def probeTarget (graph : NodeList) (newNode : Node) : NodeList × Nat :=
  match graph.get newNode.ssid with
  | some valAssoc => (graph, valAssoc)
  | none =>
    let assocNode : Node := { knownAs := newNode.ssid }
    let (graph, p) := graph.alloc assocNode
    let graph := graph.put assocNode.knownAs p
    (graph, p)

/-- Lines 94-97 and 100-103: `if !containsAssociation(a, b) { a.associations =
append(a.associations, b) }`. -/
def addAssociation (graph : NodeList) (a b : Nat) : NodeList :=
  if !containsAssociation graph a b then
    let v := graph.heap a
    graph.store a { v with associations := v.associations ++ [b] }
  else graph

/-- Lines 72-116: the probe request branch, run when the working node has
`nodeType == "MgmtProbeReq"`. -/
def associate (graph : NodeList) (val : Nat) (newNode : Node) : NodeList :=
  if (graph.heap val).nodeType = "MgmtProbeReq" then
    let (graph, valAssoc) := probeTarget graph newNode
    let graph := addAssociation graph val valAssoc
    let graph := addAssociation graph valAssoc val
    let v := graph.heap val
    graph.store val { v with ssid := "" }
  else graph

/-- The Go function `addNodeFromBeacon` (lines 43-122).  The result is the
state after the call and the returned boolean, which is always `true`. -/
def addNodeFromBeacon (pBuffer : Nat) (graph : NodeList) (inNode : BeaconNode) :
    NodeList × Bool :=
  let newNode := createNodeFromBeacon pBuffer inNode
  let (graph, val) := upsert graph inNode newNode
  let graph := associate graph val newNode
  (graph, true)

/-- The state after processing the observations `obs` in order, starting from
`graph`. -/
def processAll (pBuffer : Nat) (graph : NodeList) (obs : List BeaconNode) : NodeList :=
  obs.foldl (fun g o => (addNodeFromBeacon pBuffer g o).1) graph

/-- The state after processing `obs` from the empty graph. -/
def run (pBuffer : Nat) (obs : List BeaconNode) : NodeList :=
  processAll pBuffer newGraph obs

/-- The node stored under key `k`, when there is one (`*graph.nodes[k]`). -/
def NodeList.node (graph : NodeList) (k : String) : Option Node :=
  (graph.get k).map graph.heap

/-! ## Predicates and auxiliary definitions used by the statements -/

/-- Well-formedness of a state, kept by every call of `addNodeFromBeacon`: a key
maps to an allocated node that is known as that key, every allocated node is
stored under its `knownAs`, association lists hold allocated nodes and are
symmetric, and no association list repeats a node. -/
structure WF (g : NodeList) : Prop where
  key_ok : ∀ k p, g.get k = some p → p < g.next ∧ (g.heap p).knownAs = k
  stored : ∀ p, p < g.next → g.get (g.heap p).knownAs = some p
  assoc_ok : ∀ p, p < g.next → ∀ q ∈ (g.heap p).associations,
    q < g.next ∧ p ∈ (g.heap q).associations
  assoc_nodup : ∀ p, p < g.next → (g.heap p).associations.Nodup

/-- Two node values agree on every field other than `associations` and `ssid`. -/
def sameData (a b : Node) : Prop :=
  { a with associations := [], ssid := "" } = { b with associations := [], ssid := "" }

/-- The observations of `obs` whose candidate node has identity `id`, in order. -/
def observationsOf (pBuffer : Nat) (id : String) (obs : List BeaconNode) : List BeaconNode :=
  obs.filter (fun o => decide ((createNodeFromBeacon pBuffer o).knownAs = id))

/-- The graph holds a node under `T` and a node under `N`, and each of the two
lists the other in its associations. -/
def ProbeLinked (g : NodeList) (T N : String) : Prop :=
  ∃ t n, g.get T = some t ∧ g.get N = some n ∧
    n ∈ (g.heap t).associations ∧ t ∈ (g.heap n).associations

/-- The identities of the nodes that the node stored under `k` lists in its
associations, in list order. -/
def NodeList.associationNames (g : NodeList) (k : String) : Option (List String) :=
  (g.node k).map (fun n => n.associations.map (fun q => (g.heap q).knownAs))

/-- The example scenario of the specification: a beacon for "Cafe" followed by two
identical probe requests from "AA:BB" for "Cafe".  The fields that the scenario
leaves open are arbitrary. -/
def cafeScenario (t1 h1 x1 t2 h2 t3 h3 : String) (s1 s2 s3 : Int) : List BeaconNode :=
  [{ ptype := "MgmtBeacon", ssid := "Cafe", timestamp := t1, bssid := h1,
     transmitter := x1, sigStrength := s1 },
   { ptype := "MgmtProbeReq", transmitter := "AA:BB", ssid := "Cafe", timestamp := t2,
     bssid := h2, sigStrength := s2 },
   { ptype := "MgmtProbeReq", transmitter := "AA:BB", ssid := "Cafe", timestamp := t3,
     bssid := h3, sigStrength := s3 }]

/-- The last `n` elements of a list, in order (the whole list when it is shorter). -/
def lastN {α : Type} (n : Nat) (l : List α) : List α := l.drop (l.length - n)

/-- The shift that `updateBufferedStrength` and `updateBufferedTimes` both do. -/
def pushShift {α : Type} (l : List α) (x : α) : List α :=
  if l.length > 0 then l.tail ++ [x] else l ++ [x]

/-- The signal strengths pushed for the identity `id`: those of the observations
whose working node is the node of `id`, in order. -/
def strengthsOf (pBuffer : Nat) (id : String) (obs : List BeaconNode) : List Int :=
  (observationsOf pBuffer id obs).map (fun o => o.sigStrength)

/-- The timestamps pushed for the identity `id`, in order. -/
def timesOf (pBuffer : Nat) (id : String) (obs : List BeaconNode) : List String :=
  (observationsOf pBuffer id obs).map (fun o => o.timestamp)

/-- The node of `id` was inserted from an observation (line 64): some observation
with resolved identity `id` was processed when `id` was not yet a key. -/
def InsertedFromObservation (pBuffer : Nat) (obs : List BeaconNode) (id : String) : Prop :=
  ∃ pre o post, obs = pre ++ o :: post ∧ (run pBuffer pre).get id = none ∧
    (createNodeFromBeacon pBuffer o).knownAs = id

/-- The node of `id` was inserted as a skeleton association target (line 86): the
key `id` appeared while processing an observation with another resolved identity. -/
def InsertedAsSkeleton (pBuffer : Nat) (obs : List BeaconNode) (id : String) : Prop :=
  ∃ pre o post, obs = pre ++ o :: post ∧ (run pBuffer pre).get id = none ∧
    (createNodeFromBeacon pBuffer o).knownAs ≠ id ∧
    (run pBuffer (pre ++ [o])).get id ≠ none

/-! ## Lemmas and theorems

The map and heap operations first, then the invariant `WF` and its preservation by
each phase of `addNodeFromBeacon`, then `step_cases`, the effect of one call on the
node of a given key, from which the statements about whole runs follow by
induction on the list of observations. -/

theorem lookup_filter_ne (k k2 : String) (l : List (String × Nat)) :
    (l.filter (fun e => e.1 != k)).lookup k2 = if k2 = k then none else l.lookup k2 := by
  induction l with
  | nil => simp
  | cons e l ih =>
    obtain ⟨a, b⟩ := e
    by_cases hak : a = k
    · subst hak
      by_cases h2 : k2 = a
      · subst h2; simp [List.filter_cons, ih]
      · have : (k2 == a) = false := by simpa using h2
        simp [List.filter_cons, ih, h2, List.lookup_cons, this]
    · by_cases h2 : k2 = k
      · subst h2
        have : (k2 == a) = false := by simpa using (fun h => hak h.symm)
        simp [List.filter_cons, ih, hak, List.lookup_cons, this]
      · simp [List.filter_cons, ih, hak, h2, List.lookup_cons]

@[simp]
theorem get_put (g : NodeList) (k : String) (p : Nat) (k2 : String) :
    (g.put k p).get k2 = if k2 = k then some p else g.get k2 := by
  simp only [NodeList.get, NodeList.put, List.lookup_cons, lookup_filter_ne]
  by_cases h : k2 = k
  · simp [h]
  · have : (k2 == k) = false := by simpa using h
    simp [h, this]

@[simp]
theorem get_store (g : NodeList) (p : Nat) (n : Node) (k : String) :
    (g.store p n).get k = g.get k := rfl
@[simp]
theorem next_store (g : NodeList) (p : Nat) (n : Node) : (g.store p n).next = g.next := rfl
@[simp]
theorem heap_store (g : NodeList) (p : Nat) (n : Node) (q : Nat) :
    (g.store p n).heap q = if q = p then n else g.heap q := by
  simp [NodeList.store, Function.update_apply]
@[simp]
theorem next_put (g : NodeList) (k : String) (p : Nat) : (g.put k p).next = g.next := rfl
@[simp]
theorem heap_put (g : NodeList) (k : String) (p : Nat) : (g.put k p).heap = g.heap := rfl
@[simp]
theorem get_alloc (g : NodeList) (n : Node) (k : String) : (g.alloc n).1.get k = g.get k := rfl
@[simp]
theorem next_alloc (g : NodeList) (n : Node) : (g.alloc n).1.next = g.next + 1 := rfl
@[simp]
theorem ptr_alloc (g : NodeList) (n : Node) : (g.alloc n).2 = g.next := rfl
@[simp]
theorem heap_alloc (g : NodeList) (n : Node) (q : Nat) :
    (g.alloc n).1.heap q = if q = g.next then n else g.heap q := by
  simp [NodeList.alloc, Function.update_apply]

theorem wf_newGraph : WF newGraph := by
  constructor <;> simp [newGraph, NodeList.get]

theorem wf_store_same {g : NodeList} (h : WF g) (p : Nat) (n : Node)
    (hk : n.knownAs = (g.heap p).knownAs)
    (ha : n.associations = (g.heap p).associations) : WF (g.store p n) := by
  have hfk : ∀ q, ((g.store p n).heap q).knownAs = (g.heap q).knownAs := by
    intro q; by_cases hq : q = p <;> simp [hq, hk]
  have hfa : ∀ q, ((g.store p n).heap q).associations = (g.heap q).associations := by
    intro q; by_cases hq : q = p <;> simp [hq, ha]
  constructor
  · intro k q hq
    rw [hfk]; exact h.key_ok k q hq
  · intro q hq
    rw [hfk]; exact h.stored q hq
  · intro q hq r hr
    rw [hfa] at hr ⊢
    exact h.assoc_ok q hq r hr
  · intro q hq
    rw [hfa]; exact h.assoc_nodup q hq

theorem wf_insert {g : NodeList} (h : WF g) (k : String) (n : Node)
    (hnone : g.get k = none) (hk : n.knownAs = k) (ha : n.associations = []) :
    WF ((g.alloc n).1.put k g.next) := by
  constructor
  · intro k2 q hq
    simp only [get_put, get_alloc] at hq
    simp only [next_put, next_alloc, heap_put, heap_alloc]
    by_cases h2 : k2 = k
    · simp [h2] at hq
      subst hq; simp [h2, hk]
    · simp [h2] at hq
      have := h.key_ok k2 q hq
      have hne : q ≠ g.next := by omega
      simp [hne, this.2]; omega
  · intro q hq
    simp only [next_put, next_alloc] at hq
    simp only [get_put, get_alloc, heap_put, heap_alloc]
    by_cases h2 : q = g.next
    · simp [h2, hk]
    · have hlt : q < g.next := by omega
      have hs := h.stored q hlt
      have hne : (g.heap q).knownAs ≠ k := by
        intro he; rw [he, hnone] at hs; cases hs
      simp [h2, hne, hs]
  · intro q hq r hr
    simp only [next_put, next_alloc] at hq
    simp only [next_put, next_alloc, heap_put, heap_alloc] at hr ⊢
    by_cases h2 : q = g.next
    · simp [h2, ha] at hr
    · have hlt : q < g.next := by omega
      simp only [h2, if_false] at hr
      have := h.assoc_ok q hlt r hr
      have hne : r ≠ g.next := by omega
      simp [hne, this.2]; omega
  · intro q hq
    simp only [heap_put, heap_alloc]
    by_cases h2 : q = g.next
    · simp [h2, ha]
    · simp only [next_put, next_alloc] at hq
      simp only [h2, if_false]
      exact h.assoc_nodup q (by omega)

theorem containsAssociation_iff (g : NodeList) (a b : Nat) :
    containsAssociation g a b = true ↔ b ∈ (g.heap a).associations := by
  simp [containsAssociation, List.any_eq_true]

theorem addAssociation_of_mem {g : NodeList} {a b : Nat}
    (h : b ∈ (g.heap a).associations) : addAssociation g a b = g := by
  have := (containsAssociation_iff g a b).2 h
  simp [addAssociation, this]

theorem addAssociation_of_not_mem {g : NodeList} {a b : Nat}
    (h : b ∉ (g.heap a).associations) :
    addAssociation g a b =
      g.store a { g.heap a with associations := (g.heap a).associations ++ [b] } := by
  have : containsAssociation g a b = false := by
    rw [← Bool.not_eq_true, containsAssociation_iff]; exact h
  simp [addAssociation, this]

theorem wf_link {g : NodeList} (h : WF g) {a b : Nat} (ha : a < g.next) (hb : b < g.next) :
    WF (addAssociation (addAssociation g a b) b a) := by
  by_cases hab : b ∈ (g.heap a).associations
  · have hba : a ∈ (g.heap b).associations := (h.assoc_ok a ha b hab).2
    rw [addAssociation_of_mem hab, addAssociation_of_mem hba]; exact h
  · have hba : a ∉ (g.heap b).associations := fun hm => hab (h.assoc_ok b hb a hm).2
    rw [addAssociation_of_not_mem hab]
    by_cases he : a = b
    · subst he
      rw [addAssociation_of_mem (by simp)]
      constructor
      · intro k p hp
        have := h.key_ok k p hp
        refine ⟨this.1, ?_⟩
        by_cases hpa : p = a
        · subst hpa; simpa using this.2
        · simpa [hpa] using this.2
      · intro p hp
        simp only [next_store] at hp
        by_cases hpa : p = a
        · subst hpa; simpa using h.stored p hp
        · simpa [hpa] using h.stored p hp
      · intro p hp q hq
        simp only [next_store] at hp ⊢
        by_cases hpa : p = a
        · subst hpa
          simp only [heap_store, if_true, List.mem_append, List.mem_singleton] at hq
          rcases hq with hq | hq
          · have := h.assoc_ok p hp q hq
            refine ⟨this.1, ?_⟩
            by_cases hqp : q = p
            · simp [hqp]
            · simp [hqp, this.2]
          · subst hq; simp [hp]
        · simp only [heap_store, hpa, if_false] at hq
          have := h.assoc_ok p hp q hq
          refine ⟨this.1, ?_⟩
          by_cases hqa : q = a
          · subst hqa; simp [this.2]
          · simp [hqa, this.2]
      · intro p hp
        simp only [next_store] at hp
        by_cases hpa : p = a
        · subst hpa
          simp only [heap_store, if_true]
          rw [List.nodup_append]
          refine ⟨h.assoc_nodup p hp, by simp, ?_⟩
          intro x hx hx2
          simp only [List.mem_singleton] at hx2
          subst hx2; exact hab hx
        · simpa [hpa] using h.assoc_nodup p hp
    · have hbane : b ≠ a := fun hh => he hh.symm
      have hnm : a ∉ ((g.store a { g.heap a with associations :=
          (g.heap a).associations ++ [b] }).heap b).associations := by
        simpa [hbane] using hba
      rw [addAssociation_of_not_mem hnm]
      constructor
      · intro k p hp
        have := h.key_ok k p hp
        simp only [get_store] at hp
        simp only [next_store, heap_store]
        refine ⟨this.1, ?_⟩
        by_cases hpb : p = b
        · subst hpb; simp [hbane, this.2]
        · by_cases hpa : p = a
          · subst hpa; simp [hpb, this.2]
          · simp [hpb, hpa, this.2]
      · intro p hp
        simp only [next_store] at hp
        have := h.stored p hp
        by_cases hpb : p = b
        · subst hpb; simpa [hbane] using this
        · by_cases hpa : p = a
          · subst hpa; simpa [hpb] using this
          · simpa [hpb, hpa] using this
      · intro p hp q hq
        simp only [next_store] at hp ⊢
        simp only [heap_store] at hq ⊢
        by_cases hpb : p = b
        · subst hpb
          simp only [if_true, hbane, if_false, List.mem_append, List.mem_singleton] at hq
          rcases hq with hq | hq
          · have := h.assoc_ok p hp q hq
            refine ⟨this.1, ?_⟩
            by_cases hqp : q = p
            · subst hqp; simp [hbane, this.2]
            · by_cases hqa : q = a
              · subst hqa; exact absurd hq hba
              · simp [hqp, hqa, this.2]
          · subst hq; simp [ha, he]
        · by_cases hpa : p = a
          · subst hpa
            simp only [hpb, if_false, if_true, List.mem_append, List.mem_singleton] at hq
            rcases hq with hq | hq
            · have := h.assoc_ok p hp q hq
              refine ⟨this.1, ?_⟩
              by_cases hqb : q = b
              · subst hqb; exact absurd hq hab
              · by_cases hqp : q = p
                · subst hqp; simp [hqb, this.2]
                · simp [hqb, hqp, this.2]
            · subst hq; simp [hb, hbane]
          · simp only [hpb, hpa, if_false] at hq
            have := h.assoc_ok p hp q hq
            refine ⟨this.1, ?_⟩
            by_cases hqb : q = b
            · subst hqb; simp [hbane, this.2]
            · by_cases hqa : q = a
              · subst hqa; simp [hqb, this.2]
              · simp [hqb, hqa, this.2]
      · intro p hp
        simp only [next_store] at hp
        simp only [heap_store]
        by_cases hpb : p = b
        · subst hpb
          simp only [if_true, hbane, if_false]
          rw [List.nodup_append]
          refine ⟨h.assoc_nodup p hp, by simp, ?_⟩
          intro x hx hx2
          simp only [List.mem_singleton] at hx2
          subst hx2; exact hba hx
        · by_cases hpa : p = a
          · subst hpa
            simp only [hpb, if_false, if_true]
            rw [List.nodup_append]
            refine ⟨h.assoc_nodup p hp, by simp, ?_⟩
            intro x hx hx2
            simp only [List.mem_singleton] at hx2
            subst hx2; exact hab hx
          · simpa [hpb, hpa] using h.assoc_nodup p hp

theorem upsert_found {g : NodeList} {o : BeaconNode} {n : Node} {val : Nat}
    (h : g.get n.knownAs = some val) :
    upsert g o n =
      (g.store val { g.heap val with
          timesSeen := wrapInt ((g.heap val).timesSeen + 1),
          strength := updateBufferedStrength (g.heap val).strength o.sigStrength,
          seen := updateBufferedTimes (g.heap val).seen o.timestamp }, val) := by
  simp [upsert, h]

theorem upsert_new {g : NodeList} {o : BeaconNode} {n : Node}
    (h : g.get n.knownAs = none) :
    upsert g o n = ((g.alloc n).1.put n.knownAs g.next, g.next) := by
  simp [upsert, h, NodeList.alloc]

theorem probeTarget_found {g : NodeList} {n : Node} {q : Nat}
    (h : g.get n.ssid = some q) : probeTarget g n = (g, q) := by
  simp [probeTarget, h]

theorem probeTarget_new {g : NodeList} {n : Node} (h : g.get n.ssid = none) :
    probeTarget g n = ((g.alloc { knownAs := n.ssid }).1.put n.ssid g.next, g.next) := by
  simp [probeTarget, h, NodeList.alloc]

theorem wf_upsert {g : NodeList} (h : WF g) (o : BeaconNode) (n : Node)
    (hn : n.associations = []) :
    WF (upsert g o n).1 ∧ (upsert g o n).2 < (upsert g o n).1.next ∧
      (upsert g o n).1.get n.knownAs = some (upsert g o n).2 := by
  cases hg : g.get n.knownAs with
  | some val =>
    rw [upsert_found hg]
    exact ⟨wf_store_same h val _ rfl rfl, (h.key_ok _ _ hg).1, hg⟩
  | none =>
    rw [upsert_new hg]
    exact ⟨wf_insert h _ n hg rfl hn, by simp, by simp⟩

theorem wf_probeTarget {g : NodeList} (h : WF g) (n : Node) :
    WF (probeTarget g n).1 ∧ (probeTarget g n).2 < (probeTarget g n).1.next ∧
      (probeTarget g n).1.get n.ssid = some (probeTarget g n).2 ∧
      g.next ≤ (probeTarget g n).1.next := by
  cases hg : g.get n.ssid with
  | some q =>
    rw [probeTarget_found hg]
    exact ⟨h, (h.key_ok _ _ hg).1, hg, le_refl _⟩
  | none =>
    rw [probeTarget_new hg]
    exact ⟨wf_insert h _ _ hg rfl rfl, by simp, by simp, by simp⟩

theorem associate_probe {g : NodeList} {val : Nat} {n : Node}
    (h : (g.heap val).nodeType = "MgmtProbeReq") :
    associate g val n =
      (addAssociation (addAssociation (probeTarget g n).1 val (probeTarget g n).2)
        (probeTarget g n).2 val).store val
        { (addAssociation (addAssociation (probeTarget g n).1 val (probeTarget g n).2)
            (probeTarget g n).2 val).heap val with ssid := "" } := by
  simp [associate, h]

theorem associate_other {g : NodeList} {val : Nat} {n : Node}
    (h : (g.heap val).nodeType ≠ "MgmtProbeReq") : associate g val n = g := by
  simp [associate, h]

theorem wf_associate {g : NodeList} (h : WF g) {val : Nat} (hv : val < g.next) (n : Node) :
    WF (associate g val n) := by
  by_cases hp : (g.heap val).nodeType = "MgmtProbeReq"
  · rw [associate_probe hp]
    obtain ⟨h1, h2, _, h4⟩ := wf_probeTarget h n
    exact wf_store_same (wf_link h1 (lt_of_lt_of_le hv h4) h2) val _ rfl rfl
  · rw [associate_other hp]; exact h

theorem createNodeFromBeacon_associations (pBuffer : Nat) (o : BeaconNode) :
    (createNodeFromBeacon pBuffer o).associations = [] := by
  unfold createNodeFromBeacon
  split_ifs <;> rfl

theorem addNodeFromBeacon_eq (pBuffer : Nat) (g : NodeList) (o : BeaconNode) :
    (addNodeFromBeacon pBuffer g o).1 =
      associate (upsert g o (createNodeFromBeacon pBuffer o)).1
        (upsert g o (createNodeFromBeacon pBuffer o)).2 (createNodeFromBeacon pBuffer o) := rfl

theorem wf_addNodeFromBeacon {g : NodeList} (h : WF g) (pBuffer : Nat) (o : BeaconNode) :
    WF (addNodeFromBeacon pBuffer g o).1 := by
  rw [addNodeFromBeacon_eq]
  obtain ⟨h1, h2, _⟩ := wf_upsert h o _ (createNodeFromBeacon_associations pBuffer o)
  exact wf_associate h1 h2 _

theorem run_nil (pBuffer : Nat) : run pBuffer [] = newGraph := rfl

theorem run_snoc (pBuffer : Nat) (obs : List BeaconNode) (o : BeaconNode) :
    run pBuffer (obs ++ [o]) = (addNodeFromBeacon pBuffer (run pBuffer obs) o).1 := by
  simp [run, processAll, List.foldl_append]

theorem wf_run (pBuffer : Nat) (obs : List BeaconNode) : WF (run pBuffer obs) := by
  induction obs using List.reverseRecOn with
  | nil => exact wf_newGraph
  | append_singleton l o ih => rw [run_snoc]; exact wf_addNodeFromBeacon ih pBuffer o

theorem sameData_refl (a : Node) : sameData a a := rfl

theorem sameData_trans {a b c : Node} (h1 : sameData a b) (h2 : sameData b c) : sameData a c :=
  Eq.trans h1 h2

theorem sameData_fields {a b : Node} (h : sameData a b) :
    a.knownAs = b.knownAs ∧ a.bssid = b.bssid ∧ a.nodeType = b.nodeType ∧
    a.transmitterAddresses = b.transmitterAddresses ∧ a.timesSeen = b.timesSeen ∧
    a.strength = b.strength ∧ a.seen = b.seen ∧ a.firstSeen = b.firstSeen := by
  unfold sameData at h
  injection h with _ h2 _ h4 h5 h6 h7 h8 h9 h10
  exact ⟨h2, h4, h5, h6, h7, h8, h9, h10⟩

theorem addAssociation_get (g : NodeList) (a b : Nat) (k : String) :
    (addAssociation g a b).get k = g.get k := by
  unfold addAssociation; split <;> rfl

theorem addAssociation_next (g : NodeList) (a b : Nat) :
    (addAssociation g a b).next = g.next := by
  unfold addAssociation; split <;> rfl

theorem addAssociation_sameData (g : NodeList) (a b p : Nat) :
    sameData ((addAssociation g a b).heap p) (g.heap p) := by
  unfold addAssociation
  split
  · by_cases hp : p = a
    · subst hp; simp [sameData]
    · simp [hp, sameData]
  · exact sameData_refl _

theorem addAssociation_heap_ne (g : NodeList) {a b p : Nat} (hp : p ≠ a) :
    (addAssociation g a b).heap p = g.heap p := by
  unfold addAssociation
  split
  · simp [hp]
  · rfl

theorem probeTarget_get_some {g : NodeList} (n : Node) {k : String} {p : Nat}
    (h : g.get k = some p) : (probeTarget g n).1.get k = some p := by
  cases hg : g.get n.ssid with
  | some q => rw [probeTarget_found hg]; exact h
  | none =>
    rw [probeTarget_new hg]
    have : k ≠ n.ssid := by intro he; rw [he, hg] at h; cases h
    simp [this, h]

theorem probeTarget_heap_lt (g : NodeList) (n : Node) {p : Nat} (hp : p < g.next) :
    (probeTarget g n).1.heap p = g.heap p := by
  cases hg : g.get n.ssid with
  | some q => rw [probeTarget_found hg]
  | none =>
    rw [probeTarget_new hg]
    have : p ≠ g.next := by omega
    simp [this]

theorem associate_get_some {g : NodeList} (val : Nat) (n : Node) {k : String} {p : Nat}
    (h : g.get k = some p) : (associate g val n).get k = some p := by
  by_cases hp : (g.heap val).nodeType = "MgmtProbeReq"
  · rw [associate_probe hp]
    simp only [get_store, addAssociation_get]
    exact probeTarget_get_some n h
  · rw [associate_other hp]; exact h

theorem associate_sameData (g : NodeList) (val : Nat) (n : Node) {p : Nat} (hp : p < g.next) :
    sameData ((associate g val n).heap p) (g.heap p) := by
  by_cases hpr : (g.heap val).nodeType = "MgmtProbeReq"
  · rw [associate_probe hpr]
    have h1 : sameData
        ((addAssociation (addAssociation (probeTarget g n).1 val (probeTarget g n).2)
          (probeTarget g n).2 val).heap p) (g.heap p) := by
      refine sameData_trans (addAssociation_sameData _ _ _ _) ?_
      refine sameData_trans (addAssociation_sameData _ _ _ _) ?_
      rw [probeTarget_heap_lt g n hp]
      exact sameData_refl _
    by_cases hpv : p = val
    · subst hpv
      simp only [heap_store, if_true]
      exact sameData_trans (by simp [sameData]) h1
    · simpa [hpv] using h1
  · rw [associate_other hpr]; exact sameData_refl _

theorem associate_next_le (g : NodeList) (val : Nat) (n : Node) :
    g.next ≤ (associate g val n).next := by
  by_cases hpr : (g.heap val).nodeType = "MgmtProbeReq"
  · rw [associate_probe hpr]
    simp only [next_store, addAssociation_next]
    cases hg : g.get n.ssid with
    | some q => rw [probeTarget_found hg]
    | none => rw [probeTarget_new hg]; simp
  · rw [associate_other hpr]

/-- The only key that `associate` can add is the probed name; the node stored
under it is then the skeleton with the working node as its single association. -/
theorem associate_get_new {g : NodeList} {val : Nat} (hv : val < g.next) (n : Node)
    {k : String} {q : Nat} (hnone : g.get k = none)
    (h : (associate g val n).get k = some q) :
    k = n.ssid ∧ q = g.next ∧ (g.heap val).nodeType = "MgmtProbeReq" ∧
      (associate g val n).heap q = { knownAs := n.ssid, associations := [val] } := by
  by_cases hpr : (g.heap val).nodeType = "MgmtProbeReq"
  · rw [associate_probe hpr] at h ⊢
    simp only [get_store, addAssociation_get] at h
    cases hg : g.get n.ssid with
    | some r =>
      rw [probeTarget_found hg] at h
      rw [hnone] at h; cases h
    | none =>
      rw [probeTarget_new hg] at h ⊢
      have hk : k = n.ssid := by
        by_contra hne
        simp [hne, hnone] at h
      subst hk
      simp at h
      subst h
      refine ⟨rfl, rfl, hpr, ?_⟩
      have hne : g.next ≠ val := by omega
      have hne2 : val ≠ g.next := by omega
      simp only [heap_store, hne, if_false]
      have hnm : val ∉ ((addAssociation ((g.alloc { knownAs := n.ssid }).1.put n.ssid g.next)
          val g.next).heap g.next).associations := by
        rw [addAssociation_heap_ne _ hne]; simp
      rw [addAssociation_of_not_mem hnm]
      simp only [heap_store, if_true]
      rw [addAssociation_heap_ne _ hne]; simp
  · rw [associate_other hpr] at h
    rw [hnone] at h; cases h

theorem observationsOf_snoc (pBuffer : Nat) (id : String) (obs : List BeaconNode)
    (o : BeaconNode) :
    observationsOf pBuffer id (obs ++ [o]) =
      observationsOf pBuffer id obs ++
        (if (createNodeFromBeacon pBuffer o).knownAs = id then [o] else []) := by
  unfold observationsOf
  rw [List.filter_append]
  by_cases h : (createNodeFromBeacon pBuffer o).knownAs = id <;> simp [List.filter_cons, h]

theorem upsert_get (g : NodeList) (o : BeaconNode) (n : Node) (k : String) :
    (upsert g o n).1.get k = if k = n.knownAs then some (upsert g o n).2 else g.get k := by
  cases hg : g.get n.knownAs with
  | some val =>
    rw [upsert_found hg]
    by_cases hk : k = n.knownAs
    · simp [hk, hg]
    · simp [hk]
  | none =>
    rw [upsert_new hg]
    by_cases hk : k = n.knownAs <;> simp [hk]

theorem upsert_heap_ne (g : NodeList) (o : BeaconNode) (n : Node) {p : Nat}
    (hp : p ≠ (upsert g o n).2) : (upsert g o n).1.heap p = g.heap p := by
  cases hg : g.get n.knownAs with
  | some val =>
    rw [upsert_found hg] at hp ⊢
    simp at hp
    simp [hp]
  | none =>
    rw [upsert_new hg] at hp ⊢
    simp at hp
    simp [hp]

theorem upsert_next_le (g : NodeList) (o : BeaconNode) (n : Node) :
    g.next ≤ (upsert g o n).1.next := by
  cases hg : g.get n.knownAs with
  | some val => rw [upsert_found hg]; simp
  | none => rw [upsert_new hg]; simp

theorem wrapInt_succ (c : Int) : wrapInt (wrapInt c + 1) = wrapInt (c + 1) := by
  unfold wrapInt
  omega

theorem wrapInt_of_range {c : Int} (h0 : -2 ^ 63 ≤ c) (h1 : c < 2 ^ 63) : wrapInt c = c := by
  unfold wrapInt
  omega

/-- What one call does to the node stored under the key `id`. -/
theorem step_cases {g : NodeList} (h : WF g) (pBuffer : Nat) (o : BeaconNode) (id : String) :
    (id = (createNodeFromBeacon pBuffer o).knownAs ∧
      ∃ p, g.get id = some p ∧ (addNodeFromBeacon pBuffer g o).1.get id = some p ∧
        sameData ((addNodeFromBeacon pBuffer g o).1.heap p)
          { g.heap p with
            timesSeen := wrapInt ((g.heap p).timesSeen + 1),
            strength := updateBufferedStrength (g.heap p).strength o.sigStrength,
            seen := updateBufferedTimes (g.heap p).seen o.timestamp }) ∨
    (id = (createNodeFromBeacon pBuffer o).knownAs ∧ g.get id = none ∧
      (addNodeFromBeacon pBuffer g o).1.get id = some g.next ∧
        sameData ((addNodeFromBeacon pBuffer g o).1.heap g.next)
          (createNodeFromBeacon pBuffer o)) ∨
    (id ≠ (createNodeFromBeacon pBuffer o).knownAs ∧
      ∃ p, g.get id = some p ∧ (addNodeFromBeacon pBuffer g o).1.get id = some p ∧
        sameData ((addNodeFromBeacon pBuffer g o).1.heap p) (g.heap p)) ∨
    (id ≠ (createNodeFromBeacon pBuffer o).knownAs ∧ g.get id = none ∧ id = o.ssid ∧
      ∃ q, (addNodeFromBeacon pBuffer g o).1.get id = some q ∧
        (addNodeFromBeacon pBuffer g o).1.heap q =
          { knownAs := id,
            associations := [(upsert g o (createNodeFromBeacon pBuffer o)).2] }) ∨
    (id ≠ (createNodeFromBeacon pBuffer o).knownAs ∧ g.get id = none ∧
      (addNodeFromBeacon pBuffer g o).1.get id = none) := by
  rw [addNodeFromBeacon_eq]
  obtain ⟨h1, h2, h3⟩ := wf_upsert h o _ (createNodeFromBeacon_associations pBuffer o)
  generalize hn : createNodeFromBeacon pBuffer o = n at *
  have hssid : n.ssid = o.ssid := by
    rw [← hn]; unfold createNodeFromBeacon; split_ifs <;> rfl
  by_cases hid : id = n.knownAs
  · subst hid
    have hg1 := associate_get_some (upsert g o n).2 n h3
    have hsd := associate_sameData (upsert g o n).1 (upsert g o n).2 n h2
    cases hg : g.get n.knownAs with
    | some val =>
      left
      rw [upsert_found hg] at hg1 hsd ⊢
      refine ⟨rfl, val, rfl, hg1, ?_⟩
      simpa using hsd
    | none =>
      right; left
      rw [upsert_new hg] at hg1 hsd ⊢
      refine ⟨rfl, rfl, hg1, ?_⟩
      simpa using hsd
  · right; right
    have hget1 : (upsert g o n).1.get id = g.get id := by rw [upsert_get]; simp [hid]
    cases hg : g.get id with
    | some p =>
      left
      rw [hg] at hget1
      have hp1 := h1.key_ok id p hget1
      have hv1 := h1.key_ok _ _ h3
      have hne : p ≠ (upsert g o n).2 := by
        intro he; rw [he] at hp1; exact hid (hp1.2.symm.trans hv1.2)
      refine ⟨hid, p, rfl, associate_get_some _ n hget1, ?_⟩
      have := associate_sameData (upsert g o n).1 (upsert g o n).2 n hp1.1
      rwa [upsert_heap_ne g o n hne] at this
    | none =>
      right
      rw [hg] at hget1
      cases hg2 : (associate (upsert g o n).1 (upsert g o n).2 n).get id with
      | none => right; exact ⟨hid, rfl, rfl⟩
      | some q =>
        left
        obtain ⟨e1, _, _, e4⟩ := associate_get_new h2 n hget1 hg2
        refine ⟨hid, rfl, e1.trans hssid, q, rfl, ?_⟩
        rw [e4, e1]

theorem createNodeFromBeacon_timesSeen (pBuffer : Nat) (o : BeaconNode) :
    (createNodeFromBeacon pBuffer o).timesSeen = 1 := by
  unfold createNodeFromBeacon
  split_ifs <;> rfl

theorem observationsOf_nil_of_absent (pBuffer : Nat) (obs : List BeaconNode) (id : String)
    (h : (run pBuffer obs).get id = none) : observationsOf pBuffer id obs = [] := by
  induction obs using List.reverseRecOn with
  | nil => rfl
  | append_singleton l o ih =>
    rw [run_snoc] at h
    rw [observationsOf_snoc]
    rcases step_cases (wf_run pBuffer l) pBuffer o id with
      ⟨_, p, _, h2, _⟩ | ⟨_, _, h2, _⟩ | ⟨_, p, _, h2, _⟩ | ⟨_, _, _, q, h2, _⟩ | ⟨hne, h1, _⟩
    · rw [h] at h2; cases h2
    · rw [h] at h2; cases h2
    · rw [h] at h2; cases h2
    · rw [h] at h2; cases h2
    · rw [ih h1, if_neg (fun e => hne (Eq.symm e))]; rfl

theorem timesSeen_run (pBuffer : Nat) (obs : List BeaconNode) (id : String) (p : Nat)
    (h : (run pBuffer obs).get id = some p) :
    ((run pBuffer obs).heap p).timesSeen = wrapInt (observationsOf pBuffer id obs).length := by
  induction obs using List.reverseRecOn generalizing p with
  | nil => simp [run_nil, newGraph, NodeList.get] at h
  | append_singleton l o ih =>
    rw [run_snoc] at h ⊢
    rw [observationsOf_snoc]
    rcases step_cases (wf_run pBuffer l) pBuffer o id with
      ⟨he, q, h1, h2, h3⟩ | ⟨he, h1, h2, h3⟩ | ⟨hne, q, h1, h2, h3⟩ |
      ⟨hne, h1, _, q, h2, h3⟩ | ⟨_, _, h2⟩
    · rw [h] at h2; cases h2
      rw [(sameData_fields h3).2.2.2.2.1]
      simp only [he.symm, if_true, List.length_append, List.length_singleton]
      rw [ih p h1]
      push_cast
      exact wrapInt_succ _
    · rw [h] at h2; cases h2
      rw [(sameData_fields h3).2.2.2.2.1, createNodeFromBeacon_timesSeen]
      rw [observationsOf_nil_of_absent pBuffer l id h1]
      simp [he.symm, wrapInt]
    · rw [h] at h2; cases h2
      rw [(sameData_fields h3).2.2.2.2.1, ih p h1, if_neg (fun e => hne (Eq.symm e))]
      simp
    · rw [h] at h2; cases h2
      rw [h3, observationsOf_nil_of_absent pBuffer l id h1, if_neg (fun e => hne (Eq.symm e))]
      simp [wrapInt]
    · rw [h] at h2; cases h2

theorem get_some_of_observed (pBuffer : Nat) (obs : List BeaconNode) (id : String)
    (h : observationsOf pBuffer id obs ≠ []) : ∃ p, (run pBuffer obs).get id = some p := by
  cases hg : (run pBuffer obs).get id with
  | some p => exact ⟨p, rfl⟩
  | none => exact absurd (observationsOf_nil_of_absent pBuffer obs id hg) h

theorem createNodeFromBeacon_knownAs_eq (pBuffer : Nat) (beacon : BeaconNode) :
    (createNodeFromBeacon pBuffer beacon).knownAs =
      if beacon.ptype = "MgmtProbeReq" then beacon.transmitter else beacon.ssid := by
  unfold createNodeFromBeacon
  split_ifs <;> rfl

/-- C1: the candidate built by `createNodeFromBeacon` is known as the transmitter
address when the classification is "MgmtProbeReq", and as the network name
(ssid) when it is "MgmtBeacon" or anything else. -/
theorem identity_resolution (pBuffer : Nat) (beacon : BeaconNode) :
    (createNodeFromBeacon pBuffer beacon).knownAs =
      if beacon.ptype = "MgmtProbeReq" then beacon.transmitter else beacon.ssid := by
  unfold createNodeFromBeacon
  split_ifs <;> rfl

/-- C2: after processing any sequence of observations from the empty graph, an
identity that is the resolved identity of exactly `k ≥ 1` of them (whatever
else is interleaved) is stored in the graph and its node has `timesSeen = k`,
as long as `k` is in the range of the Go `int` counter (`k < 2^63`). -/
theorem timesSeen_eq_count (pBuffer : Nat) (obs : List BeaconNode) (id : String) (k : Nat)
    (hk : 1 ≤ k) (hcount : (observationsOf pBuffer id obs).length = k)
    (hrange : k < 2 ^ 63) :
    ∃ n, (run pBuffer obs).node id = some n ∧ n.timesSeen = k := by
  have hne : observationsOf pBuffer id obs ≠ [] := by
    intro he; rw [he] at hcount; simp at hcount; omega
  obtain ⟨p, hp⟩ := get_some_of_observed pBuffer obs id hne
  refine ⟨(run pBuffer obs).heap p, by simp [NodeList.node, hp], ?_⟩
  rw [timesSeen_run pBuffer obs id p hp, hcount]
  apply wrapInt_of_range <;> omega

theorem timesSeen_eq_count_witness :
    ∃ n, (run 3 [{ ptype := "MgmtProbeReq", transmitter := "AA:BB", ssid := "Cafe" },
                 { ptype := "MgmtBeacon", ssid := "Cafe" },
                 { ptype := "MgmtProbeReq", transmitter := "AA:BB", ssid := "Home" }]).node "AA:BB"
          = some n ∧ n.timesSeen = (2 : Nat) :=
  timesSeen_eq_count 3 _ "AA:BB" 2 (by decide) (by decide) (by decide)

theorem addAssociation_mem_self (g : NodeList) (a b : Nat) :
    b ∈ ((addAssociation g a b).heap a).associations := by
  by_cases h : b ∈ (g.heap a).associations
  · rw [addAssociation_of_mem h]; exact h
  · rw [addAssociation_of_not_mem h]; simp

theorem addAssociation_mono (g : NodeList) (a b : Nat) {p x : Nat}
    (hx : x ∈ (g.heap p).associations) :
    x ∈ ((addAssociation g a b).heap p).associations := by
  by_cases h : b ∈ (g.heap a).associations
  · rw [addAssociation_of_mem h]; exact hx
  · rw [addAssociation_of_not_mem h]
    by_cases hp : p = a
    · subst hp; simp [hx]
    · simp [hp, hx]

theorem createNodeFromBeacon_ssid (pBuffer : Nat) (o : BeaconNode) :
    (createNodeFromBeacon pBuffer o).ssid = o.ssid := by
  unfold createNodeFromBeacon; split_ifs <;> rfl

theorem createNodeFromBeacon_nodeType (pBuffer : Nat) (o : BeaconNode) :
    (createNodeFromBeacon pBuffer o).nodeType = o.ptype := by
  unfold createNodeFromBeacon; split_ifs <;> rfl

theorem associate_linked {g : NodeList} {val : Nat} (n : Node)
    (hpr : (g.heap val).nodeType = "MgmtProbeReq") (hwf : WF g) :
    ∃ tgt, (associate g val n).get n.ssid = some tgt ∧
      tgt ∈ ((associate g val n).heap val).associations ∧
      val ∈ ((associate g val n).heap tgt).associations := by
  obtain ⟨_, _, h3, _⟩ := wf_probeTarget hwf n
  refine ⟨(probeTarget g n).2, ?_, ?_, ?_⟩
  · rw [associate_probe hpr]
    simpa [addAssociation_get] using h3
  · rw [associate_probe hpr]
    simp only [heap_store, if_true]
    exact addAssociation_mono _ _ _ (addAssociation_mem_self _ _ _)
  · rw [associate_probe hpr]
    by_cases he : (probeTarget g n).2 = val
    · simp only [heap_store, he, if_true]
      exact addAssociation_mem_self _ _ _
    · simp only [heap_store, he, if_false]
      exact addAssociation_mem_self _ _ _

theorem upsert_nodeType {g : NodeList} (o : BeaconNode) (n : Node) :
    ((upsert g o n).1.heap (upsert g o n).2).nodeType =
      match g.get n.knownAs with
      | some p => (g.heap p).nodeType
      | none => n.nodeType := by
  cases hg : g.get n.knownAs with
  | some val => rw [upsert_found hg]; simp
  | none => rw [upsert_new hg]; simp

/-- When the working node is classified "MgmtProbeReq", the call links it with the
node of the probed name. -/
theorem addNodeFromBeacon_linked {g : NodeList} (hwf : WF g) (pBuffer : Nat) (o : BeaconNode)
    (hpr : ((upsert g o (createNodeFromBeacon pBuffer o)).1.heap
      (upsert g o (createNodeFromBeacon pBuffer o)).2).nodeType = "MgmtProbeReq") :
    ProbeLinked (addNodeFromBeacon pBuffer g o).1
      (createNodeFromBeacon pBuffer o).knownAs o.ssid := by
  rw [addNodeFromBeacon_eq]
  obtain ⟨h1, h2, h3⟩ := wf_upsert hwf o _ (createNodeFromBeacon_associations pBuffer o)
  obtain ⟨tgt, e1, e2, e3⟩ := associate_linked (createNodeFromBeacon pBuffer o) hpr h1
  rw [createNodeFromBeacon_ssid] at e1
  exact ⟨_, tgt, associate_get_some _ _ h3, e1, e2, e3⟩

/-- The working node is stored under the resolved identity after every call, in
every state. -/
theorem addNodeFromBeacon_get_working (pBuffer : Nat) (g : NodeList) (o : BeaconNode) :
    (addNodeFromBeacon pBuffer g o).1.get (createNodeFromBeacon pBuffer o).knownAs =
      some (upsert g o (createNodeFromBeacon pBuffer o)).2 := by
  rw [addNodeFromBeacon_eq]
  apply associate_get_some
  rw [upsert_get]; simp

/-- C3: a defect of the code.  The claim, like the comment on line 72 ("Probe request,
update the associations and make sure both ends of the probe exist"), asks that a
probe request leaves both ends stored and linked.  After a beacon for the network
name "X", a probe request whose transmitter address is also "X" finds the beacon
node as its working node; line 72 tests the `nodeType` of that node, "MgmtBeacon",
not the type of the packet, and the probe branch is skipped: "X" and "N" are not
linked, no node "N" is made, and the node "X" keeps its empty associations (only
its `timesSeen` goes to 2). -/
theorem colliding_probe_not_linked :
    ¬ ProbeLinked
      (addNodeFromBeacon 1 (run 1 [{ ptype := "MgmtBeacon", ssid := "X" }])
        { ptype := "MgmtProbeReq", transmitter := "X", ssid := "N" }).1 "X" "N" ∧
    (addNodeFromBeacon 1 (run 1 [{ ptype := "MgmtBeacon", ssid := "X" }])
        { ptype := "MgmtProbeReq", transmitter := "X", ssid := "N" }).1.get "N" = none ∧
    ((addNodeFromBeacon 1 (run 1 [{ ptype := "MgmtBeacon", ssid := "X" }])
        { ptype := "MgmtProbeReq", transmitter := "X", ssid := "N" }).1.node "X").map
      (fun n => (n.nodeType, n.associations, n.timesSeen)) = some ("MgmtBeacon", [], 2) := by
  have hnone : (addNodeFromBeacon 1 (run 1 [{ ptype := "MgmtBeacon", ssid := "X" }])
      { ptype := "MgmtProbeReq", transmitter := "X", ssid := "N" }).1.get "N" = none := by
    decide
  refine ⟨?_, hnone, by decide⟩
  rintro ⟨t, n, _, hn, _⟩
  exact Option.noConfusion (hnone.symm.trans hn)

/-- What the code does for a probe request apart from that defect.  For every graph
reachable from the empty graph and every "MgmtProbeReq" observation with
transmitter `T` and network name `N`, a node is stored under `T` after the call;
and when the gate of line 72 agrees with the type of the packet, that is when the
node already stored under `T`, if there is one, is classified "MgmtProbeReq", the
graph also has a node under `N` and the two nodes list each other. -/
theorem probe_links_both_ends (pBuffer : Nat) (obs : List BeaconNode) (o : BeaconNode)
    (hprobe : o.ptype = "MgmtProbeReq") :
    (∃ t, (addNodeFromBeacon pBuffer (run pBuffer obs) o).1.get o.transmitter = some t) ∧
    ((∀ p, (run pBuffer obs).get o.transmitter = some p →
        ((run pBuffer obs).heap p).nodeType = "MgmtProbeReq") →
      ProbeLinked (addNodeFromBeacon pBuffer (run pBuffer obs) o).1 o.transmitter o.ssid) := by
  have hk : (createNodeFromBeacon pBuffer o).knownAs = o.transmitter := by
    rw [createNodeFromBeacon_knownAs_eq, if_pos hprobe]
  constructor
  · have := addNodeFromBeacon_get_working pBuffer (run pBuffer obs) o
    rw [hk] at this
    exact ⟨_, this⟩
  · intro hworking
    have := addNodeFromBeacon_linked (wf_run pBuffer obs) pBuffer o (by
      rw [upsert_nodeType, hk]
      cases hg : (run pBuffer obs).get o.transmitter with
      | some p => exact hworking p hg
      | none => simp only []; rw [createNodeFromBeacon_nodeType]; exact hprobe)
    rwa [hk] at this

theorem probe_links_both_ends_witness :
    ProbeLinked
      (addNodeFromBeacon 2
        (run 2 [{ ptype := "MgmtProbeReq", transmitter := "AA:BB", ssid := "Cafe" }])
        { ptype := "MgmtProbeReq", transmitter := "AA:BB", ssid := "Home" }).1 "AA:BB" "Home" :=
  (probe_links_both_ends 2 [{ ptype := "MgmtProbeReq", transmitter := "AA:BB", ssid := "Cafe" }]
    { ptype := "MgmtProbeReq", transmitter := "AA:BB", ssid := "Home" } (by decide)).2
    (fun p hp => by
      have h0 : (run 2 [{ ptype := "MgmtProbeReq", transmitter := "AA:BB",
                          ssid := "Cafe" }]).get "AA:BB" = some 0 := by decide
      cases h0.symm.trans hp
      decide)

theorem associate_of_linked {g : NodeList} {val tgt : Nat} (n : Node)
    (hget : g.get n.ssid = some tgt)
    (h1 : tgt ∈ (g.heap val).associations) (h2 : val ∈ (g.heap tgt).associations) (p : Nat) :
    ((associate g val n).heap p).associations = (g.heap p).associations := by
  by_cases hpr : (g.heap val).nodeType = "MgmtProbeReq"
  · rw [associate_probe hpr, probeTarget_found hget]
    simp only []
    rw [addAssociation_of_mem h1, addAssociation_of_mem h2]
    by_cases hp : p = val
    · subst hp; simp
    · simp [hp]
  · rw [associate_other hpr]

/-- A second observation with the same resolved identity and the same network name,
processed right after the first, changes no association list. -/
theorem addNodeFromBeacon_twice_associations {g : NodeList} (hwf : WF g) (pBuffer : Nat)
    (o o2 : BeaconNode)
    (hk : (createNodeFromBeacon pBuffer o2).knownAs = (createNodeFromBeacon pBuffer o).knownAs)
    (hs : o2.ssid = o.ssid) (p : Nat) :
    ((addNodeFromBeacon pBuffer (addNodeFromBeacon pBuffer g o).1 o2).1.heap p).associations =
      ((addNodeFromBeacon pBuffer g o).1.heap p).associations := by
  obtain ⟨w1, w2, w3⟩ := wf_upsert hwf o _ (createNodeFromBeacon_associations pBuffer o)
  have hg1 : (addNodeFromBeacon pBuffer g o).1.get (createNodeFromBeacon pBuffer o2).knownAs =
      some (upsert g o (createNodeFromBeacon pBuffer o)).2 := by
    rw [addNodeFromBeacon_eq, hk]; exact associate_get_some _ _ w3
  have hsd := associate_sameData (upsert g o (createNodeFromBeacon pBuffer o)).1
    (upsert g o (createNodeFromBeacon pBuffer o)).2 (createNodeFromBeacon pBuffer o) w2
  rw [← addNodeFromBeacon_eq] at hsd
  generalize hg1def : (addNodeFromBeacon pBuffer g o).1 = g1 at hg1 hsd ⊢
  have hassoc1 : ∀ q, (((upsert g1 o2 (createNodeFromBeacon pBuffer o2)).1).heap q).associations =
      (g1.heap q).associations := by
    intro q
    rw [upsert_found hg1]
    by_cases hq : q = (upsert g o (createNodeFromBeacon pBuffer o)).2
    · subst hq; simp
    · simp [hq]
  have hv : (upsert g1 o2 (createNodeFromBeacon pBuffer o2)).2 =
      (upsert g o (createNodeFromBeacon pBuffer o)).2 := by
    rw [upsert_found hg1]
  rw [addNodeFromBeacon_eq pBuffer g1 o2]
  by_cases hpr : ((upsert g o (createNodeFromBeacon pBuffer o)).1.heap
      (upsert g o (createNodeFromBeacon pBuffer o)).2).nodeType = "MgmtProbeReq"
  · obtain ⟨tgt, e1, e2, e3⟩ := associate_linked (createNodeFromBeacon pBuffer o) hpr w1
    rw [← addNodeFromBeacon_eq, hg1def] at e1 e2 e3
    rw [createNodeFromBeacon_ssid, ← hs, ← createNodeFromBeacon_ssid pBuffer o2] at e1
    have hget2 : (upsert g1 o2 (createNodeFromBeacon pBuffer o2)).1.get
        (createNodeFromBeacon pBuffer o2).ssid = some tgt := by
      rw [upsert_get]
      split_ifs with hc
      · rw [hc, hg1] at e1; rw [hv]; exact e1
      · exact e1
    rw [associate_of_linked (createNodeFromBeacon pBuffer o2) hget2
      (by rw [hassoc1, hv]; exact e2) (by rw [hassoc1, hv]; exact e3)]
    exact hassoc1 p
  · have hpr2 : ((upsert g1 o2 (createNodeFromBeacon pBuffer o2)).1.heap
        (upsert g1 o2 (createNodeFromBeacon pBuffer o2)).2).nodeType ≠ "MgmtProbeReq" := by
      rw [upsert_nodeType, hg1]
      simp only []
      rw [(sameData_fields hsd).2.2.1]
      exact hpr
    rw [associate_other hpr2]
    exact hassoc1 p

/-- C4: in every graph reachable from the empty graph, for nodes `A` and `B` of
the graph, `B` is in the associations of `A` exactly when `A` is in the
associations of `B`. -/
theorem associations_symmetric (pBuffer : Nat) (obs : List BeaconNode) (ka kb : String)
    (a b : Nat) (ha : (run pBuffer obs).get ka = some a)
    (hb : (run pBuffer obs).get kb = some b) :
    b ∈ ((run pBuffer obs).heap a).associations ↔
      a ∈ ((run pBuffer obs).heap b).associations := by
  have hwf := wf_run pBuffer obs
  exact ⟨fun h => (hwf.assoc_ok a (hwf.key_ok ka a ha).1 b h).2,
    fun h => (hwf.assoc_ok b (hwf.key_ok kb b hb).1 a h).2⟩

theorem associations_symmetric_witness :
    (1 ∈ ((run 3 (cafeScenario "" "" "" "" "" "" "" 0 0 0)).heap 0).associations ↔
      0 ∈ ((run 3 (cafeScenario "" "" "" "" "" "" "" 0 0 0)).heap 1).associations) :=
  associations_symmetric 3 (cafeScenario "" "" "" "" "" "" "" 0 0 0) "Cafe" "AA:BB" 0 1
    (by decide) (by decide)

/-- C5: in every graph reachable from the empty graph, a node referenced in the
associations of a node of the graph is itself stored in the graph, under its own
identity (`knownAs`) as the key. -/
theorem associations_closed (pBuffer : Nat) (obs : List BeaconNode) (ka : String)
    (a q : Nat) (ha : (run pBuffer obs).get ka = some a)
    (hq : q ∈ ((run pBuffer obs).heap a).associations) :
    (run pBuffer obs).get ((run pBuffer obs).heap q).knownAs = some q := by
  have hwf := wf_run pBuffer obs
  exact hwf.stored q (hwf.assoc_ok a (hwf.key_ok ka a ha).1 q hq).1

theorem associations_closed_witness :
    (run 3 (cafeScenario "" "" "" "" "" "" "" 0 0 0)).get
      ((run 3 (cafeScenario "" "" "" "" "" "" "" 0 0 0)).heap 1).knownAs = some 1 :=
  associations_closed 3 (cafeScenario "" "" "" "" "" "" "" 0 0 0) "Cafe" 0 1
    (by decide) (by decide)

/-- C6: in every reachable graph no node lists the same node twice in its
associations, and processing a probe request with the same transmitter `T` and the
same network name `N` a second time right after the first leaves the associations
of every node exactly as they were after the first. -/
theorem associations_idempotent (pBuffer : Nat) (obs : List BeaconNode) :
    (∀ k n, (run pBuffer obs).node k = some n → n.associations.Nodup) ∧
    (∀ (o1 o2 : BeaconNode) (p : Nat),
      o1.ptype = "MgmtProbeReq" → o2.ptype = "MgmtProbeReq" →
      o2.transmitter = o1.transmitter → o2.ssid = o1.ssid →
      ((addNodeFromBeacon pBuffer
          (addNodeFromBeacon pBuffer (run pBuffer obs) o1).1 o2).1.heap p).associations =
        ((addNodeFromBeacon pBuffer (run pBuffer obs) o1).1.heap p).associations) := by
  have hwf := wf_run pBuffer obs
  constructor
  · intro k n hn
    simp only [NodeList.node, Option.map_eq_some'] at hn
    obtain ⟨a, ha, rfl⟩ := hn
    exact hwf.assoc_nodup a (hwf.key_ok k a ha).1
  · intro o1 o2 p h1 h2 ht hs
    apply addNodeFromBeacon_twice_associations hwf pBuffer o1 o2 _ hs p
    rw [createNodeFromBeacon_knownAs_eq, createNodeFromBeacon_knownAs_eq, if_pos h1, if_pos h2]
    exact ht

theorem associations_idempotent_witness :
    ((run 2 (cafeScenario "" "" "" "" "" "" "" 0 0 0)).heap 0).associations.Nodup ∧
    ((addNodeFromBeacon 2 (addNodeFromBeacon 2 (run 2 [])
        { ptype := "MgmtProbeReq", transmitter := "AA:BB", ssid := "Cafe" }).1
        { ptype := "MgmtProbeReq", transmitter := "AA:BB", ssid := "Cafe",
          timestamp := "later" }).1.heap 0).associations =
      ((addNodeFromBeacon 2 (run 2 [])
        { ptype := "MgmtProbeReq", transmitter := "AA:BB", ssid := "Cafe" }).1.heap 0).associations :=
  ⟨(associations_idempotent 2 (cafeScenario "" "" "" "" "" "" "" 0 0 0)).1 "Cafe" _ rfl,
   (associations_idempotent 2 []).2 _ _ 0 rfl rfl rfl rfl⟩

/-- C7: the example scenario.  From the empty graph, a beacon for "Cafe" and two
identical probe requests from "AA:BB" for "Cafe" leave exactly the keys "Cafe" and
"AA:BB", with `timesSeen` 1 and 2, and each node lists exactly the other. -/
theorem cafe_example (pBuffer : Nat) (t1 h1 x1 t2 h2 t3 h3 : String) (s1 s2 s3 : Int) :
    (∀ k, ((run pBuffer (cafeScenario t1 h1 x1 t2 h2 t3 h3 s1 s2 s3)).get k).isSome ↔
      (k = "Cafe" ∨ k = "AA:BB")) ∧
    (run pBuffer (cafeScenario t1 h1 x1 t2 h2 t3 h3 s1 s2 s3)).next = 2 ∧
    ((run pBuffer (cafeScenario t1 h1 x1 t2 h2 t3 h3 s1 s2 s3)).node "Cafe").map
      (fun n => n.timesSeen) = some 1 ∧
    ((run pBuffer (cafeScenario t1 h1 x1 t2 h2 t3 h3 s1 s2 s3)).node "AA:BB").map
      (fun n => n.timesSeen) = some 2 ∧
    (run pBuffer (cafeScenario t1 h1 x1 t2 h2 t3 h3 s1 s2 s3)).associationNames "Cafe" =
      some ["AA:BB"] ∧
    (run pBuffer (cafeScenario t1 h1 x1 t2 h2 t3 h3 s1 s2 s3)).associationNames "AA:BB" =
      some ["Cafe"] := by
  refine ⟨?_, rfl, rfl, rfl, rfl, rfl⟩
  intro k
  have hget : (run pBuffer (cafeScenario t1 h1 x1 t2 h2 t3 h3 s1 s2 s3)).get k =
      List.lookup k [("AA:BB", 1), ("Cafe", 0)] := rfl
  rw [hget]
  by_cases e1 : k = "AA:BB"
  · subst e1; decide
  · by_cases e2 : k = "Cafe"
    · subst e2; decide
    · have b1 : (k == "AA:BB") = false := by simpa using e1
      have b2 : (k == "Cafe") = false := by simpa using e2
      simp [List.lookup, b1, b2, e1, e2]

theorem updateBufferedStrength_eq (l : List Int) (s : Int) :
    updateBufferedStrength l s = pushShift l s := rfl

theorem updateBufferedTimes_eq (l : List String) (t : String) :
    updateBufferedTimes l t = pushShift l t := rfl

theorem lastN_length {α : Type} (n : Nat) (l : List α) :
    (lastN n l).length = min n l.length := by
  simp [lastN]; omega

theorem lastN_of_length_le {α : Type} {n : Nat} {l : List α} (h : l.length ≤ n) :
    lastN n l = l := by
  simp [lastN, Nat.sub_eq_zero_of_le h]

theorem pushShift_lastN {α : Type} {c : Nat} (hc : 1 ≤ c) (L : List α) (x : α)
    (hL : c ≤ L.length ∨ L = []) : pushShift (lastN c L) x = lastN c (L ++ [x]) := by
  rcases hL with hL | hL
  · have hlen : (lastN c L).length > 0 := by rw [lastN_length]; omega
    unfold pushShift
    rw [if_pos hlen]
    unfold lastN
    rw [List.tail_drop, List.length_append, List.length_singleton,
      List.drop_append_of_le_length (by omega)]
    congr 2
    omega
  · subst hL
    have : 1 - c = 0 := by omega
    simp [pushShift, lastN, this]

theorem pushShift_length {α : Type} (l : List α) (x : α) (h : l ≠ []) :
    (pushShift l x).length = l.length := by
  cases l with
  | nil => exact absurd rfl h
  | cons a t => simp [pushShift]

theorem createNodeFromBeacon_bssid (pBuffer : Nat) (o : BeaconNode) :
    (createNodeFromBeacon pBuffer o).bssid = [o.bssid] := by
  unfold createNodeFromBeacon; split_ifs <;> rfl

theorem createNodeFromBeacon_strength (pBuffer : Nat) (o : BeaconNode) :
    (createNodeFromBeacon pBuffer o).strength =
      updateBufferedStrength (List.replicate pBuffer 0) o.sigStrength := by
  unfold createNodeFromBeacon; split_ifs <;> rfl

theorem createNodeFromBeacon_seen (pBuffer : Nat) (o : BeaconNode) :
    (createNodeFromBeacon pBuffer o).seen =
      updateBufferedTimes (List.replicate pBuffer "") o.timestamp := by
  unfold createNodeFromBeacon; split_ifs <;> rfl

theorem pushShift_replicate {α : Type} (pBuffer : Nat) (z x : α) :
    pushShift (List.replicate pBuffer z) x =
      lastN (max pBuffer 1) (List.replicate pBuffer z ++ [x]) := by
  have h := pushShift_lastN (c := max pBuffer 1) (by omega) (List.replicate pBuffer z) x (by
    cases pBuffer with
    | zero => right; rfl
    | succ m => left; simp)
  rwa [lastN_of_length_le (by simp)] at h

/-- The history buffers of a stored node, in terms of the values pushed for its
identity.  A node made as a skeleton has no hardware address (`bssid`) and keeps
the last pushed value only; a node made from an observation keeps the last
`pBuffer` entries of the `pBuffer` zero values followed by the pushed values. -/
theorem buffers_run (pBuffer : Nat) (obs : List BeaconNode) (id : String) (p : Nat)
    (h : (run pBuffer obs).get id = some p) :
    (((run pBuffer obs).heap p).bssid = [] →
      ((run pBuffer obs).heap p).strength = lastN 1 (strengthsOf pBuffer id obs) ∧
      ((run pBuffer obs).heap p).seen = lastN 1 (timesOf pBuffer id obs)) ∧
    (((run pBuffer obs).heap p).bssid ≠ [] →
      observationsOf pBuffer id obs ≠ [] ∧
      ((run pBuffer obs).heap p).strength =
        lastN (max pBuffer 1) (List.replicate pBuffer 0 ++ strengthsOf pBuffer id obs) ∧
      ((run pBuffer obs).heap p).seen =
        lastN (max pBuffer 1) (List.replicate pBuffer "" ++ timesOf pBuffer id obs)) := by
  induction obs using List.reverseRecOn generalizing p with
  | nil => simp [run_nil, newGraph, NodeList.get] at h
  | append_singleton l o ih =>
    rw [run_snoc] at h ⊢
    unfold strengthsOf timesOf at ih ⊢
    rw [observationsOf_snoc]
    rcases step_cases (wf_run pBuffer l) pBuffer o id with
      ⟨he, q, h1, h2, h3⟩ | ⟨he, h1, h2, h3⟩ | ⟨hne, q, h1, h2, h3⟩ |
      ⟨hne, h1, _, q, h2, h3⟩ | ⟨_, _, h2⟩
    · rw [h] at h2; cases h2
      obtain ⟨_, f2, _, _, _, f6, f7, _⟩ := sameData_fields h3
      simp only [] at f2 f6 f7
      rw [f2, f6, f7, if_pos he.symm, updateBufferedStrength_eq, updateBufferedTimes_eq]
      simp only [List.map_append, List.map_cons, List.map_nil]
      obtain ⟨ih1, ih2⟩ := ih p h1
      constructor
      · intro hb
        obtain ⟨e1, e2⟩ := ih1 hb
        rw [e1, e2]
        constructor
        · apply pushShift_lastN (le_refl 1)
          cases hs : List.map (fun o => o.sigStrength) (observationsOf pBuffer id l) with
          | nil => right; rfl
          | cons a t => left; simp
        · apply pushShift_lastN (le_refl 1)
          cases hs : List.map (fun o => o.timestamp) (observationsOf pBuffer id l) with
          | nil => right; rfl
          | cons a t => left; simp
      · intro hb
        obtain ⟨e0, e1, e2⟩ := ih2 hb
        have hpos : 0 < (observationsOf pBuffer id l).length := List.length_pos.2 e0
        rw [e1, e2]
        refine ⟨by simp, ?_, ?_⟩
        · rw [← List.append_assoc]
          apply pushShift_lastN (by omega)
          left; simp; omega
        · rw [← List.append_assoc]
          apply pushShift_lastN (by omega)
          left; simp; omega
    · rw [h] at h2; cases h2
      obtain ⟨_, f2, _, _, _, f6, f7, _⟩ := sameData_fields h3
      rw [f2, f6, f7, createNodeFromBeacon_bssid, createNodeFromBeacon_strength,
        createNodeFromBeacon_seen, if_pos he.symm,
        observationsOf_nil_of_absent pBuffer l id h1,
        updateBufferedStrength_eq, updateBufferedTimes_eq]
      refine ⟨by simp, fun _ => ⟨by simp, ?_, ?_⟩⟩
      · exact pushShift_replicate pBuffer 0 o.sigStrength
      · exact pushShift_replicate pBuffer "" o.timestamp
    · rw [h] at h2; cases h2
      obtain ⟨_, f2, _, _, _, f6, f7, _⟩ := sameData_fields h3
      rw [f2, f6, f7, if_neg (fun e => hne (Eq.symm e)), List.append_nil]
      exact ih p h1
    · rw [h] at h2; cases h2
      rw [h3, if_neg (fun e => hne (Eq.symm e)), List.append_nil,
        observationsOf_nil_of_absent pBuffer l id h1]
      simp [lastN]
    · rw [h] at h2; cases h2

theorem step_keeps_bssid {g : NodeList} (hwf : WF g) (pBuffer : Nat) (o : BeaconNode)
    {id : String} {p : Nat} (h : g.get id = some p) :
    (addNodeFromBeacon pBuffer g o).1.get id = some p ∧
      ((addNodeFromBeacon pBuffer g o).1.heap p).bssid = (g.heap p).bssid := by
  rcases step_cases hwf pBuffer o id with
    ⟨_, q, h1, h2, h3⟩ | ⟨_, h1, _, _⟩ | ⟨_, q, h1, h2, h3⟩ | ⟨_, h1, _, _⟩ | ⟨_, h1, _⟩
  · rw [h] at h1; cases h1
    exact ⟨h2, (sameData_fields h3).2.1⟩
  · rw [h] at h1; cases h1
  · rw [h] at h1; cases h1
    exact ⟨h2, (sameData_fields h3).2.1⟩
  · rw [h] at h1; cases h1
  · rw [h] at h1; cases h1

theorem run_keeps_bssid (pBuffer : Nat) (pre post : List BeaconNode) {id : String} {p : Nat}
    (h : (run pBuffer pre).get id = some p) :
    (run pBuffer (pre ++ post)).get id = some p ∧
      ((run pBuffer (pre ++ post)).heap p).bssid = ((run pBuffer pre).heap p).bssid := by
  induction post using List.reverseRecOn with
  | nil => simpa using h
  | append_singleton l o ih =>
    rw [← List.append_assoc, run_snoc]
    obtain ⟨e1, e2⟩ := step_keeps_bssid (wf_run pBuffer (pre ++ l)) pBuffer o ih.1
    exact ⟨e1, e2.trans ih.2⟩

theorem inserted_bssid {pBuffer : Nat} {obs : List BeaconNode} {id : String}
    (h : InsertedFromObservation pBuffer obs id) :
    ∃ p, (run pBuffer obs).get id = some p ∧ ((run pBuffer obs).heap p).bssid ≠ [] := by
  obtain ⟨pre, o, post, rfl, hnone, hid⟩ := h
  have hstep : ∃ p, (run pBuffer (pre ++ [o])).get id = some p ∧
      ((run pBuffer (pre ++ [o])).heap p).bssid ≠ [] := by
    rw [run_snoc]
    rcases step_cases (wf_run pBuffer pre) pBuffer o id with
      ⟨_, q, h1, _, _⟩ | ⟨_, _, h2, h3⟩ | ⟨hne, _⟩ | ⟨hne, _⟩ | ⟨hne, _⟩
    · rw [hnone] at h1; cases h1
    · refine ⟨_, h2, ?_⟩
      rw [(sameData_fields h3).2.1, createNodeFromBeacon_bssid]; simp
    · exact absurd hid.symm hne
    · exact absurd hid.symm hne
    · exact absurd hid.symm hne
  obtain ⟨p, hp, hb⟩ := hstep
  have := run_keeps_bssid pBuffer (pre ++ [o]) post hp
  rw [List.append_assoc, List.singleton_append] at this
  exact ⟨p, this.1, by rw [this.2]; exact hb⟩

theorem skeleton_bssid {pBuffer : Nat} {obs : List BeaconNode} {id : String}
    (h : InsertedAsSkeleton pBuffer obs id) :
    ∃ p, (run pBuffer obs).get id = some p ∧ ((run pBuffer obs).heap p).bssid = [] := by
  obtain ⟨pre, o, post, rfl, hnone, hid, hsome⟩ := h
  have hstep : ∃ p, (run pBuffer (pre ++ [o])).get id = some p ∧
      ((run pBuffer (pre ++ [o])).heap p).bssid = [] := by
    rw [run_snoc] at hsome ⊢
    rcases step_cases (wf_run pBuffer pre) pBuffer o id with
      ⟨he, _⟩ | ⟨he, _⟩ | ⟨_, q, h1, _, _⟩ | ⟨_, _, _, q, h2, h3⟩ | ⟨_, _, h2⟩
    · exact absurd he.symm hid
    · exact absurd he.symm hid
    · rw [hnone] at h1; cases h1
    · exact ⟨q, h2, by rw [h3]⟩
    · exact absurd h2 hsome
  obtain ⟨p, hp, hb⟩ := hstep
  have := run_keeps_bssid pBuffer (pre ++ [o]) post hp
  rw [List.append_assoc, List.singleton_append] at this
  exact ⟨p, this.1, by rw [this.2]; exact hb⟩

theorem lastN_lastN {α : Type} {m c : Nat} (h : m ≤ c) (L : List α) :
    lastN m (lastN c L) = lastN m L := by
  unfold lastN
  rw [List.drop_drop, List.length_drop]
  congr 1
  omega

theorem lastN_append_right {α : Type} {m : Nat} (A S : List α) (h : m ≤ S.length) :
    lastN m (A ++ S) = lastN m S := by
  unfold lastN
  rw [List.length_append, List.drop_append_eq_append_drop]
  have h1 : A.length + S.length - m - A.length = S.length - m := by omega
  have h2 : A.length ≤ A.length + S.length - m := by omega
  rw [h1, List.drop_eq_nil_of_le h2, List.nil_append]

/-- Every stored node was inserted from an observation or as a skeleton. -/
theorem origin_cases (pBuffer : Nat) (obs : List BeaconNode) (id : String) (p : Nat)
    (h : (run pBuffer obs).get id = some p) :
    InsertedFromObservation pBuffer obs id ∨ InsertedAsSkeleton pBuffer obs id := by
  induction obs using List.reverseRecOn generalizing p with
  | nil => simp [run_nil, newGraph, NodeList.get] at h
  | append_singleton l o ih =>
    cases hg : (run pBuffer l).get id with
    | some q =>
      rcases ih q hg with ⟨pre, o2, post, e, h1, h2⟩ | ⟨pre, o2, post, e, h1, h2, h3⟩
      · left; exact ⟨pre, o2, post ++ [o], by rw [e]; simp, h1, h2⟩
      · right; exact ⟨pre, o2, post ++ [o], by rw [e]; simp, h1, h2, h3⟩
    | none =>
      by_cases hk : (createNodeFromBeacon pBuffer o).knownAs = id
      · left; exact ⟨l, o, [], rfl, hg, hk⟩
      · right; exact ⟨l, o, [], rfl, hg, hk, by rw [h]; simp⟩

/-- C8 (as stated) fails: with capacity 2 the candidate built from one observation
has a signal history of length 2, not 1, and the node inserted from it, the
working node of one observation, has the history `[0, -40]`, not `[-40]`. -/
theorem history_length_counterexample :
    (createNodeFromBeacon 2
      { ptype := "MgmtBeacon", ssid := "Cafe", sigStrength := -40 }).strength.length ≠ 1 ∧
    ((run 2 [{ ptype := "MgmtBeacon", ssid := "Cafe", sigStrength := -40 }]).node "Cafe").map
      (fun n => n.strength) ≠ some [-40] := by
  decide

/-- C8 (amended): let `1 ≤ pBuffer` and let the node of `id` have been the working
node of `k ≥ 1` observations.  The node is stored, and it was inserted from an
observation or as a skeleton.  If it was inserted from an observation, both
histories have length exactly `pBuffer` and their last `min k pBuffer` entries
are the last `min k pBuffer` values pushed, in push order.  If it was inserted
as a skeleton, both histories have length exactly 1 and hold the last value
pushed.  The candidate returned by `createNodeFromBeacon` has both histories of
length exactly `pBuffer`. -/
theorem history_contents (pBuffer : Nat) (hp : 1 ≤ pBuffer) (obs : List BeaconNode)
    (id : String) (k : Nat) (hk : 1 ≤ k)
    (hcount : (observationsOf pBuffer id obs).length = k) :
    (∃ n, (run pBuffer obs).node id = some n ∧
      (InsertedFromObservation pBuffer obs id ∨ InsertedAsSkeleton pBuffer obs id) ∧
      (InsertedFromObservation pBuffer obs id →
        n.strength.length = pBuffer ∧ n.seen.length = pBuffer ∧
        lastN (min k pBuffer) n.strength =
          lastN (min k pBuffer) (strengthsOf pBuffer id obs) ∧
        lastN (min k pBuffer) n.seen = lastN (min k pBuffer) (timesOf pBuffer id obs)) ∧
      (InsertedAsSkeleton pBuffer obs id →
        n.strength.length = 1 ∧ n.seen.length = 1 ∧
        n.strength = lastN 1 (strengthsOf pBuffer id obs) ∧
        n.seen = lastN 1 (timesOf pBuffer id obs))) ∧
    (∀ o : BeaconNode, (createNodeFromBeacon pBuffer o).strength.length = pBuffer ∧
      (createNodeFromBeacon pBuffer o).seen.length = pBuffer) := by
  have hne : observationsOf pBuffer id obs ≠ [] := by
    intro he; rw [he] at hcount; simp at hcount; omega
  have hmax : max pBuffer 1 = pBuffer := by omega
  have hS : (strengthsOf pBuffer id obs).length = k := by simp [strengthsOf, hcount]
  have hT : (timesOf pBuffer id obs).length = k := by simp [timesOf, hcount]
  obtain ⟨p, hget⟩ := get_some_of_observed pBuffer obs id hne
  obtain ⟨b1, b2⟩ := buffers_run pBuffer obs id p hget
  refine ⟨⟨(run pBuffer obs).heap p, by simp [NodeList.node, hget],
    origin_cases pBuffer obs id p hget, ?_, ?_⟩, ?_⟩
  · intro hins
    obtain ⟨q, hq, hb⟩ := inserted_bssid hins
    rw [hget] at hq; cases hq
    obtain ⟨_, e1, e2⟩ := b2 hb
    rw [hmax] at e1 e2
    rw [e1, e2]
    refine ⟨?_, ?_, ?_, ?_⟩
    · rw [lastN_length]; simp
    · rw [lastN_length]; simp
    · rw [lastN_lastN (Nat.min_le_right _ _),
        lastN_append_right _ _ (by rw [hS]; exact Nat.min_le_left _ _)]
    · rw [lastN_lastN (Nat.min_le_right _ _),
        lastN_append_right _ _ (by rw [hT]; exact Nat.min_le_left _ _)]
  · intro hsk
    obtain ⟨q, hq, hb⟩ := skeleton_bssid hsk
    rw [hget] at hq; cases hq
    obtain ⟨e1, e2⟩ := b1 hb
    rw [e1, e2]
    refine ⟨?_, ?_, rfl, rfl⟩
    · rw [lastN_length, hS]; omega
    · rw [lastN_length, hT]; omega
  · intro o
    rw [createNodeFromBeacon_strength, createNodeFromBeacon_seen, updateBufferedStrength_eq,
      updateBufferedTimes_eq, pushShift_length _ _ (by
        intro he; have := congrArg List.length he; simp at this; omega),
      pushShift_length _ _ (by
        intro he; have := congrArg List.length he; simp at this; omega)]
    simp

theorem history_contents_witness :
    (∃ n, (run 3 (cafeScenario "t1" "" "" "t2" "" "t3" "" (-40) (-50) (-60))).node "AA:BB"
        = some n ∧
      n.strength.length = 3 ∧ lastN 2 n.strength = [-50, -60] ∧
      lastN 2 n.seen = ["t2", "t3"]) := by
  obtain ⟨⟨n, h1, _, h2, _⟩, _⟩ := history_contents 3 (by decide)
    (cafeScenario "t1" "" "" "t2" "" "t3" "" (-40) (-50) (-60)) "AA:BB" 2 (by decide)
    (by decide)
  obtain ⟨e1, _, e3, e4⟩ := h2
    ⟨[{ ptype := "MgmtBeacon", ssid := "Cafe", timestamp := "t1", sigStrength := -40 }],
     { ptype := "MgmtProbeReq", transmitter := "AA:BB", ssid := "Cafe", timestamp := "t2",
       sigStrength := -50 },
     [{ ptype := "MgmtProbeReq", transmitter := "AA:BB", ssid := "Cafe", timestamp := "t3",
        sigStrength := -60 }], rfl, by decide, by decide⟩
  exact ⟨n, h1, e1, e3.trans (by decide), e4.trans (by decide)⟩

/-- C9: for a capacity `pBuffer ≥ 1`, in every graph reachable from the empty graph
the `strength` and `seen` of every stored node have length at most `pBuffer`, and a
push by `updateBufferedStrength` or `updateBufferedTimes` onto a non-empty buffer
returns a buffer of the same length. -/
theorem history_bounded (pBuffer : Nat) (hp : 1 ≤ pBuffer) (obs : List BeaconNode) :
    (∀ k n, (run pBuffer obs).node k = some n →
      n.strength.length ≤ pBuffer ∧ n.seen.length ≤ pBuffer) ∧
    (∀ (l : List Int) (s : Int), l ≠ [] → (updateBufferedStrength l s).length = l.length) ∧
    (∀ (l : List String) (t : String), l ≠ [] →
      (updateBufferedTimes l t).length = l.length) := by
  refine ⟨?_, fun l s h => pushShift_length l s h, fun l t h => pushShift_length l t h⟩
  intro k n hn
  simp only [NodeList.node, Option.map_eq_some'] at hn
  obtain ⟨p, hget, rfl⟩ := hn
  obtain ⟨b1, b2⟩ := buffers_run pBuffer obs k p hget
  by_cases hb : ((run pBuffer obs).heap p).bssid = []
  · obtain ⟨e1, e2⟩ := b1 hb
    rw [e1, e2, lastN_length, lastN_length]
    omega
  · obtain ⟨_, e1, e2⟩ := b2 hb
    rw [e1, e2, lastN_length, lastN_length]
    omega

theorem history_bounded_witness :
    (∀ k n, (run 2 (cafeScenario "" "" "" "" "" "" "" 1 2 3)).node k = some n →
      n.strength.length ≤ 2 ∧ n.seen.length ≤ 2) ∧
    (updateBufferedStrength [1, 2] 3).length = 2 ∧
    (updateBufferedTimes ["a"] "b").length = 1 :=
  ⟨(history_bounded 2 (by decide) (cafeScenario "" "" "" "" "" "" "" 1 2 3)).1,
   (history_bounded 2 (by decide) []).2.1 [1, 2] 3 (by decide),
   (history_bounded 2 (by decide) []).2.2 ["a"] "b" (by decide)⟩

/-- C10: in a reachable graph, when the working node of an observation is
classified "MgmtProbeReq" and the probed name `N2` is not a key once the working
node is in the graph, the call inserts a new node under `N2`: its `knownAs` is
`N2`, its associations are exactly the working node, and every other field has
its zero value. -/
theorem skeleton_created (pBuffer : Nat) (obs : List BeaconNode) (o : BeaconNode)
    (hprobe : ((upsert (run pBuffer obs) o (createNodeFromBeacon pBuffer o)).1.heap
      (upsert (run pBuffer obs) o (createNodeFromBeacon pBuffer o)).2).nodeType
        = "MgmtProbeReq")
    (habsent : (upsert (run pBuffer obs) o (createNodeFromBeacon pBuffer o)).1.get o.ssid
      = none) :
    (run pBuffer obs).get o.ssid = none ∧
    (addNodeFromBeacon pBuffer (run pBuffer obs) o).1.get
        (createNodeFromBeacon pBuffer o).knownAs =
      some (upsert (run pBuffer obs) o (createNodeFromBeacon pBuffer o)).2 ∧
    ∃ q, (addNodeFromBeacon pBuffer (run pBuffer obs) o).1.get o.ssid = some q ∧
      (run pBuffer obs).next ≤ q ∧
      (addNodeFromBeacon pBuffer (run pBuffer obs) o).1.heap q =
        { knownAs := o.ssid,
          associations := [(upsert (run pBuffer obs) o (createNodeFromBeacon pBuffer o)).2],
          ssid := "", bssid := [], nodeType := "", transmitterAddresses := [],
          timesSeen := 0, strength := [], seen := [], firstSeen := "" } := by
  obtain ⟨w1, w2, w3⟩ := wf_upsert (wf_run pBuffer obs) o _
    (createNodeFromBeacon_associations pBuffer o)
  obtain ⟨tgt, e1, _, _⟩ := associate_linked (createNodeFromBeacon pBuffer o) hprobe w1
  rw [← createNodeFromBeacon_ssid pBuffer o] at habsent
  obtain ⟨_, f2, _, f4⟩ := associate_get_new w2 (createNodeFromBeacon pBuffer o) habsent e1
  rw [createNodeFromBeacon_ssid] at e1 f4 habsent
  refine ⟨?_, ?_, tgt, ?_, ?_, ?_⟩
  · rw [upsert_get] at habsent
    split_ifs at habsent
    exact habsent
  · rw [addNodeFromBeacon_eq]; exact associate_get_some _ _ w3
  · rw [addNodeFromBeacon_eq]; exact e1
  · rw [f2]; exact upsert_next_le _ _ _
  · rw [addNodeFromBeacon_eq]; exact f4

theorem skeleton_created_witness :
    ∃ q, (addNodeFromBeacon 2 (run 2 [])
        { ptype := "MgmtProbeReq", transmitter := "AA:BB", ssid := "Home" }).1.get "Home"
          = some q ∧
      (addNodeFromBeacon 2 (run 2 [])
        { ptype := "MgmtProbeReq", transmitter := "AA:BB", ssid := "Home" }).1.heap q =
        { knownAs := "Home", associations := [0] } :=
  (skeleton_created 2 [] { ptype := "MgmtProbeReq", transmitter := "AA:BB", ssid := "Home" }
    (by decide) (by decide)).2.2.imp (fun _ h => ⟨h.1, h.2.2⟩)

/-! ## Frame of a call, creation-time fields, and the histories by origin -/

theorem probeTarget_heap_ne (g : NodeList) (n : Node) {p : Nat}
    (hp : p ≠ (probeTarget g n).2) : (probeTarget g n).1.heap p = g.heap p := by
  cases hg : g.get n.ssid with
  | some q => rw [probeTarget_found hg]
  | none =>
    rw [probeTarget_new hg] at hp ⊢
    simp at hp
    simp [hp]

theorem probeTarget_get (g : NodeList) (n : Node) (k : String) :
    (probeTarget g n).1.get k = if k = n.ssid then some (probeTarget g n).2 else g.get k := by
  cases hg : g.get n.ssid with
  | some q =>
    rw [probeTarget_found hg]
    by_cases hk : k = n.ssid
    · simp [hk, hg]
    · simp [hk]
  | none =>
    rw [probeTarget_new hg]
    by_cases hk : k = n.ssid <;> simp [hk]

/-- The probe request branch writes to the working node and to the target only. -/
theorem associate_heap_ne (g : NodeList) (val : Nat) (n : Node) {p : Nat}
    (hv : p ≠ val) (ht : p ≠ (probeTarget g n).2) :
    (associate g val n).heap p = g.heap p := by
  by_cases hpr : (g.heap val).nodeType = "MgmtProbeReq"
  · rw [associate_probe hpr]
    simp only [heap_store, hv, if_false]
    rw [addAssociation_heap_ne _ ht, addAssociation_heap_ne _ hv, probeTarget_heap_ne g n ht]
  · rw [associate_other hpr]

theorem associate_get (g : NodeList) (val : Nat) (n : Node) (k : String) :
    (associate g val n).get k = g.get k ∨
      (k = n.ssid ∧ (g.heap val).nodeType = "MgmtProbeReq") := by
  by_cases hpr : (g.heap val).nodeType = "MgmtProbeReq"
  · by_cases hk : k = n.ssid
    · right; exact ⟨hk, hpr⟩
    · left
      rw [associate_probe hpr]
      simp only [get_store, addAssociation_get, probeTarget_get, hk, if_false]
  · left; rw [associate_other hpr]

theorem addNodeFromBeacon_get_some (pBuffer : Nat) (g : NodeList) (o : BeaconNode)
    {k : String} {p : Nat} (h : g.get k = some p) :
    (addNodeFromBeacon pBuffer g o).1.get k = some p := by
  rw [addNodeFromBeacon_eq]
  apply associate_get_some
  rw [upsert_get]
  split_ifs with hk
  · subst hk
    rw [upsert_found h]
  · exact h

/-- Fields other than `associations` and `ssid` of an allocated node change only by
the update of lines 52-54, which keeps `firstSeen` and the other data fields. -/
theorem addNodeFromBeacon_firstSeen (pBuffer : Nat) (g : NodeList) (o : BeaconNode)
    {p : Nat} (hp : p < g.next) :
    ((addNodeFromBeacon pBuffer g o).1.heap p).firstSeen = (g.heap p).firstSeen := by
  rw [addNodeFromBeacon_eq]
  have hle := upsert_next_le g o (createNodeFromBeacon pBuffer o)
  rw [(sameData_fields (associate_sameData _ _ _ (lt_of_lt_of_le hp hle))).2.2.2.2.2.2.2]
  cases hg : g.get (createNodeFromBeacon pBuffer o).knownAs with
  | some val =>
    rw [upsert_found hg]
    by_cases hpv : p = val
    · subst hpv; simp
    · simp [hpv]
  | none =>
    rw [upsert_new hg]
    have : p ≠ g.next := by omega
    simp [this]

theorem createNodeFromBeacon_transmitterAddresses (pBuffer : Nat) (o : BeaconNode) :
    (createNodeFromBeacon pBuffer o).transmitterAddresses = [o.transmitter] := by
  unfold createNodeFromBeacon; split_ifs <;> rfl

theorem createNodeFromBeacon_firstSeen (pBuffer : Nat) (o : BeaconNode) :
    (createNodeFromBeacon pBuffer o).firstSeen = o.timestamp := by
  unfold createNodeFromBeacon; split_ifs <;> rfl

/-- A call keeps every key at its node and does not touch the fields of a stored
node that are set only at creation. -/
theorem step_keeps_static {g : NodeList} (hwf : WF g) (pBuffer : Nat) (o : BeaconNode)
    {id : String} {p : Nat} (h : g.get id = some p) :
    (addNodeFromBeacon pBuffer g o).1.get id = some p ∧
      ((addNodeFromBeacon pBuffer g o).1.heap p).transmitterAddresses =
        (g.heap p).transmitterAddresses ∧
      ((addNodeFromBeacon pBuffer g o).1.heap p).bssid = (g.heap p).bssid ∧
      ((addNodeFromBeacon pBuffer g o).1.heap p).firstSeen = (g.heap p).firstSeen := by
  rcases step_cases hwf pBuffer o id with
    ⟨_, q, h1, h2, h3⟩ | ⟨_, h1, _, _⟩ | ⟨_, q, h1, h2, h3⟩ | ⟨_, h1, _, _⟩ | ⟨_, h1, _⟩
  · rw [h] at h1; cases h1
    obtain ⟨_, f2, _, f4, _, _, _, f8⟩ := sameData_fields h3
    exact ⟨h2, f4, f2, f8⟩
  · rw [h] at h1; cases h1
  · rw [h] at h1; cases h1
    obtain ⟨_, f2, _, f4, _, _, _, f8⟩ := sameData_fields h3
    exact ⟨h2, f4, f2, f8⟩
  · rw [h] at h1; cases h1
  · rw [h] at h1; cases h1

theorem run_keeps_static (pBuffer : Nat) (pre post : List BeaconNode) {id : String} {p : Nat}
    (h : (run pBuffer pre).get id = some p) :
    (run pBuffer (pre ++ post)).get id = some p ∧
      ((run pBuffer (pre ++ post)).heap p).transmitterAddresses =
        ((run pBuffer pre).heap p).transmitterAddresses ∧
      ((run pBuffer (pre ++ post)).heap p).bssid = ((run pBuffer pre).heap p).bssid ∧
      ((run pBuffer (pre ++ post)).heap p).firstSeen = ((run pBuffer pre).heap p).firstSeen := by
  induction post using List.reverseRecOn with
  | nil => simpa using h
  | append_singleton l o ih =>
    rw [← List.append_assoc, run_snoc]
    obtain ⟨e1, e2, e3, e4⟩ := step_keeps_static (wf_run pBuffer (pre ++ l)) pBuffer o ih.1
    exact ⟨e1, e2.trans ih.2.1, e3.trans ih.2.2.1, e4.trans ih.2.2.2⟩

/-- The node that an observation inserts, as it is stored at the end of the run:
the fields set at creation are those of the candidate. -/
theorem inserted_static (pBuffer : Nat) (pre post : List BeaconNode) (o : BeaconNode)
    (hnone : (run pBuffer pre).get (createNodeFromBeacon pBuffer o).knownAs = none) :
    ∃ p, (run pBuffer (pre ++ o :: post)).get (createNodeFromBeacon pBuffer o).knownAs = some p ∧
      ((run pBuffer (pre ++ o :: post)).heap p).transmitterAddresses = [o.transmitter] ∧
      ((run pBuffer (pre ++ o :: post)).heap p).bssid = [o.bssid] ∧
      ((run pBuffer (pre ++ o :: post)).heap p).firstSeen = o.timestamp := by
  have hstep : ∃ p, (run pBuffer (pre ++ [o])).get (createNodeFromBeacon pBuffer o).knownAs
        = some p ∧
      ((run pBuffer (pre ++ [o])).heap p).transmitterAddresses = [o.transmitter] ∧
      ((run pBuffer (pre ++ [o])).heap p).bssid = [o.bssid] ∧
      ((run pBuffer (pre ++ [o])).heap p).firstSeen = o.timestamp := by
    rw [run_snoc]
    rcases step_cases (wf_run pBuffer pre) pBuffer o (createNodeFromBeacon pBuffer o).knownAs with
      ⟨_, q, h1, _, _⟩ | ⟨_, _, h2, h3⟩ | ⟨hne, _⟩ | ⟨hne, _⟩ | ⟨hne, _⟩
    · rw [hnone] at h1; cases h1
    · obtain ⟨_, f2, _, f4, _, _, _, f8⟩ := sameData_fields h3
      exact ⟨_, h2, by rw [f4, createNodeFromBeacon_transmitterAddresses],
        by rw [f2, createNodeFromBeacon_bssid], by rw [f8, createNodeFromBeacon_firstSeen]⟩
    · exact absurd rfl hne
    · exact absurd rfl hne
    · exact absurd rfl hne
  obtain ⟨p, hp, e1, e2, e3⟩ := hstep
  have := run_keeps_static pBuffer (pre ++ [o]) post hp
  rw [List.append_assoc, List.singleton_append] at this
  exact ⟨p, this.1, this.2.1.trans e1, this.2.2.1.trans e2, this.2.2.2.trans e3⟩

/-- C11 (as stated) fails: of two beacons for "Cafe" sent from the transmitters "t1"
and "t2" with the hardware addresses "h1" and "h2", the node keeps the addresses of
the first only. -/
theorem later_addresses_not_recorded :
    ((run 2 [{ ptype := "MgmtBeacon", ssid := "Cafe", transmitter := "t1", bssid := "h1" },
             { ptype := "MgmtBeacon", ssid := "Cafe", transmitter := "t2", bssid := "h2" }]).node
        "Cafe").map (fun n => (n.transmitterAddresses, n.bssid)) = some (["t1"], ["h1"]) ∧
    ((run 2 [{ ptype := "MgmtBeacon", ssid := "Cafe", transmitter := "t1", bssid := "h1" },
             { ptype := "MgmtBeacon", ssid := "Cafe", transmitter := "t2", bssid := "h2" }]).node
        "Cafe").map (fun n => decide ("t2" ∈ n.transmitterAddresses ∨ "h2" ∈ n.bssid))
      = some false := by
  decide

/-- C11 (amended): for every sequence of observations processed from the empty
graph, the node that an observation inserts (its resolved identity was not yet a
key) is stored under that identity at the end of the run, its `transmitterAddresses`
contains the transmitter address of that observation and its `bssid` contains the
hardware address of that observation. -/
theorem inserting_addresses_recorded (pBuffer : Nat) (pre post : List BeaconNode)
    (o : BeaconNode)
    (hnew : (run pBuffer pre).get (createNodeFromBeacon pBuffer o).knownAs = none) :
    ∃ n, (run pBuffer (pre ++ o :: post)).node (createNodeFromBeacon pBuffer o).knownAs
        = some n ∧
      o.transmitter ∈ n.transmitterAddresses ∧ o.bssid ∈ n.bssid := by
  obtain ⟨p, hp, e1, e2, _⟩ := inserted_static pBuffer pre post o hnew
  exact ⟨(run pBuffer (pre ++ o :: post)).heap p, by simp [NodeList.node, hp],
    by rw [e1]; simp, by rw [e2]; simp⟩

theorem inserting_addresses_recorded_witness :
    ∃ n, (run 2 [{ ptype := "MgmtBeacon", ssid := "Cafe", transmitter := "t1", bssid := "h1" },
             { ptype := "MgmtBeacon", ssid := "Cafe", transmitter := "t2", bssid := "h2" }]).node
        "Cafe" = some n ∧ "t1" ∈ n.transmitterAddresses ∧ "h1" ∈ n.bssid :=
  inserting_addresses_recorded 2 []
    [{ ptype := "MgmtBeacon", ssid := "Cafe", transmitter := "t2", bssid := "h2" }]
    { ptype := "MgmtBeacon", ssid := "Cafe", transmitter := "t1", bssid := "h1" } (by decide)

theorem observationsOf_length_le (pBuffer : Nat) (id : String) (obs : List BeaconNode) :
    (observationsOf pBuffer id obs).length ≤ obs.length :=
  List.length_filter_le _ _

theorem observed_of_inserted {pBuffer : Nat} {obs : List BeaconNode} {id : String}
    (h : InsertedFromObservation pBuffer obs id) : observationsOf pBuffer id obs ≠ [] := by
  obtain ⟨pre, o, post, rfl, _, hid⟩ := h
  intro he
  have : o ∈ observationsOf pBuffer id (pre ++ o :: post) := by
    simp [observationsOf, hid]
  rw [he] at this
  cases this

/-- C12 (as stated) fails: a probe request from "AA:BB" for the unseen name "Home"
makes the skeleton node "Home", which is stored with `timesSeen = 0`. -/
theorem skeleton_timesSeen_zero :
    ((run 2 [{ ptype := "MgmtProbeReq", transmitter := "AA:BB", ssid := "Home" }]).node
      "Home").map (fun n => n.timesSeen) = some 0 := by
  decide

/-- C12 (amended): in every graph reachable from the empty graph by fewer than 2^63
calls, the `timesSeen` of a stored node is the number of observations that resolved
to its identity.  It is at least 1 for every node that has been the working node of
an observation, in particular for every node inserted from an observation, and it is
0 for a skeleton that has not yet been the working node of an observation. -/
theorem timesSeen_lower_bound (pBuffer : Nat) (obs : List BeaconNode)
    (hlen : obs.length < 2 ^ 63) (id : String) (n : Node)
    (hn : (run pBuffer obs).node id = some n) :
    n.timesSeen = (observationsOf pBuffer id obs).length ∧
    (observationsOf pBuffer id obs ≠ [] → 1 ≤ n.timesSeen) ∧
    (InsertedFromObservation pBuffer obs id → 1 ≤ n.timesSeen) ∧
    (observationsOf pBuffer id obs = [] → n.timesSeen = 0) := by
  simp only [NodeList.node, Option.map_eq_some'] at hn
  obtain ⟨p, hget, rfl⟩ := hn
  have hle := observationsOf_length_le pBuffer id obs
  have hts : ((run pBuffer obs).heap p).timesSeen = (observationsOf pBuffer id obs).length := by
    rw [timesSeen_run pBuffer obs id p hget]
    apply wrapInt_of_range <;> omega
  have hpos : observationsOf pBuffer id obs ≠ [] →
      1 ≤ ((run pBuffer obs).heap p).timesSeen := by
    intro hne
    rw [hts]
    have := List.length_pos.2 hne
    omega
  exact ⟨hts, hpos, fun hi => hpos (observed_of_inserted hi), fun he => by rw [hts, he]; rfl⟩

theorem timesSeen_lower_bound_witness :
    ((run 2 (cafeScenario "" "" "" "" "" "" "" 0 0 0)).heap 1).timesSeen = (2 : Nat) ∧
    1 ≤ ((run 2 (cafeScenario "" "" "" "" "" "" "" 0 0 0)).heap 1).timesSeen :=
  ⟨(timesSeen_lower_bound 2 (cafeScenario "" "" "" "" "" "" "" 0 0 0) (by decide) "AA:BB" _
      rfl).1,
   (timesSeen_lower_bound 2 (cafeScenario "" "" "" "" "" "" "" 0 0 0) (by decide) "AA:BB" _
      rfl).2.1 (by decide)⟩

/-- C13: the node inserted from an observation has `firstSeen` equal to the timestamp
of that observation, right after the call and at the end of every longer run; and for
every graph and every observation, `addNodeFromBeacon` leaves the `firstSeen` of every
node already allocated unchanged. -/
theorem firstSeen_write_once (pBuffer : Nat) :
    (∀ (pre post : List BeaconNode) (o : BeaconNode),
      (run pBuffer pre).get (createNodeFromBeacon pBuffer o).knownAs = none →
      ∃ n, (run pBuffer (pre ++ o :: post)).node (createNodeFromBeacon pBuffer o).knownAs
          = some n ∧ n.firstSeen = o.timestamp) ∧
    (∀ (g : NodeList) (o : BeaconNode) (p : Nat), p < g.next →
      ((addNodeFromBeacon pBuffer g o).1.heap p).firstSeen = (g.heap p).firstSeen) := by
  constructor
  · intro pre post o hnew
    obtain ⟨p, hp, _, _, e3⟩ := inserted_static pBuffer pre post o hnew
    exact ⟨(run pBuffer (pre ++ o :: post)).heap p, by simp [NodeList.node, hp], e3⟩
  · intro g o p hp
    exact addNodeFromBeacon_firstSeen pBuffer g o hp

theorem firstSeen_write_once_witness :
    (∃ n, (run 2 [{ ptype := "MgmtBeacon", ssid := "Cafe", timestamp := "t1" },
                  { ptype := "MgmtBeacon", ssid := "Cafe", timestamp := "t2" }]).node "Cafe"
        = some n ∧ n.firstSeen = "t1") ∧
    ((addNodeFromBeacon 2 (run 2 [{ ptype := "MgmtBeacon", ssid := "Cafe", timestamp := "t1" }])
        { ptype := "MgmtBeacon", ssid := "Cafe", timestamp := "t2" }).1.heap 0).firstSeen =
      ((run 2 [{ ptype := "MgmtBeacon", ssid := "Cafe", timestamp := "t1" }]).heap 0).firstSeen :=
  ⟨(firstSeen_write_once 2).1 []
      [{ ptype := "MgmtBeacon", ssid := "Cafe", timestamp := "t2" }]
      { ptype := "MgmtBeacon", ssid := "Cafe", timestamp := "t1" } (by decide),
   (firstSeen_write_once 2).2 _ _ 0 (by decide)⟩

theorem upsert_associations_lt (g : NodeList) (o : BeaconNode) (n : Node) {p : Nat}
    (hp : p < g.next) :
    ((upsert g o n).1.heap p).associations = (g.heap p).associations := by
  cases hg : g.get n.knownAs with
  | some val =>
    rw [upsert_found hg]
    by_cases hpv : p = val
    · subst hpv; simp
    · simp [hpv]
  | none =>
    rw [upsert_new hg]
    have : p ≠ g.next := by omega
    simp [this]

/-- A call whose working node is not classified "MgmtProbeReq" is the update or the
insertion of lines 49-70 and nothing else. -/
theorem addNodeFromBeacon_of_not_probe (pBuffer : Nat) (g : NodeList) (o : BeaconNode)
    (h : ((upsert g o (createNodeFromBeacon pBuffer o)).1.heap
      (upsert g o (createNodeFromBeacon pBuffer o)).2).nodeType ≠ "MgmtProbeReq") :
    (addNodeFromBeacon pBuffer g o).1 = (upsert g o (createNodeFromBeacon pBuffer o)).1 := by
  rw [addNodeFromBeacon_eq, associate_other h]

/-- C14: a defect of the code.  The claim, like the doc comment of lines 41-42
("Associations do not exist since they are advertising packets"), asks that a beacon
changes no associations list.  After a probe request from the transmitter "X", a
beacon for the network name "X" finds the probe node as its working node; line 72
tests the `nodeType` of that node, "MgmtProbeReq", not the type of the packet, so
the probe branch runs for the beacon: the target resolves to the working node
itself and the node "X" gets itself as a second association. -/
theorem beacon_on_probe_node_links :
    ((run 2 [{ ptype := "MgmtProbeReq", transmitter := "X", ssid := "Y" }]).node "X").map
      (fun n => n.associations) = some [1] ∧
    ((addNodeFromBeacon 2 (run 2 [{ ptype := "MgmtProbeReq", transmitter := "X", ssid := "Y" }])
      { ptype := "MgmtBeacon", ssid := "X" }).1.node "X").map
      (fun n => n.associations) = some [1, 0] := by
  decide

/-- What the code does for a beacon apart from that defect.  For every state and
every "MgmtBeacon" observation with network name `N`: after the call `N` is the key
of a node `v`, and every other object and every other key is as before.  When the
gate of line 72 agrees with the type of the packet, that is when the node already
stored under `N`, if there is one, is not classified "MgmtProbeReq", the
associations of every node allocated before the call are unchanged. -/
theorem beacon_touches_one_node (pBuffer : Nat) (g : NodeList) (o : BeaconNode)
    (hbeacon : o.ptype = "MgmtBeacon") :
    ∃ v, (addNodeFromBeacon pBuffer g o).1.get o.ssid = some v ∧
      (∀ p, p ≠ v → (addNodeFromBeacon pBuffer g o).1.heap p = g.heap p) ∧
      (∀ k, k ≠ o.ssid → (addNodeFromBeacon pBuffer g o).1.get k = g.get k) ∧
      ((∀ p, g.get o.ssid = some p → (g.heap p).nodeType ≠ "MgmtProbeReq") →
        ∀ p, p < g.next →
          ((addNodeFromBeacon pBuffer g o).1.heap p).associations =
            (g.heap p).associations) := by
  have hne : o.ptype ≠ "MgmtProbeReq" := by rw [hbeacon]; decide
  have hk : (createNodeFromBeacon pBuffer o).knownAs = o.ssid := by
    rw [createNodeFromBeacon_knownAs_eq, if_neg hne]
  have hs := createNodeFromBeacon_ssid pBuffer o
  have hget1 : (upsert g o (createNodeFromBeacon pBuffer o)).1.get
      (createNodeFromBeacon pBuffer o).ssid =
        some (upsert g o (createNodeFromBeacon pBuffer o)).2 := by
    rw [upsert_get, hs, hk]; simp
  have htgt : (probeTarget (upsert g o (createNodeFromBeacon pBuffer o)).1
      (createNodeFromBeacon pBuffer o)).2 =
        (upsert g o (createNodeFromBeacon pBuffer o)).2 := by
    rw [probeTarget_found hget1]
  refine ⟨(upsert g o (createNodeFromBeacon pBuffer o)).2, ?_, ?_, ?_, ?_⟩
  · have := addNodeFromBeacon_get_working pBuffer g o
    rwa [hk] at this
  · intro p hp
    rw [addNodeFromBeacon_eq, associate_heap_ne _ _ _ hp (by rw [htgt]; exact hp),
      upsert_heap_ne _ _ _ hp]
  · intro k hkne
    rw [addNodeFromBeacon_eq]
    rcases associate_get (upsert g o (createNodeFromBeacon pBuffer o)).1
      (upsert g o (createNodeFromBeacon pBuffer o)).2 (createNodeFromBeacon pBuffer o) k with
      he | ⟨he, _⟩
    · rw [he, upsert_get, hk]; simp [hkne]
    · rw [hs] at he; exact absurd he hkne
  · intro hstored p hp
    have hnp : ((upsert g o (createNodeFromBeacon pBuffer o)).1.heap
        (upsert g o (createNodeFromBeacon pBuffer o)).2).nodeType ≠ "MgmtProbeReq" := by
      rw [upsert_nodeType, hk]
      cases hg : g.get o.ssid with
      | some q => exact hstored q hg
      | none => simp only []; rw [createNodeFromBeacon_nodeType]; exact hne
    rw [addNodeFromBeacon_of_not_probe pBuffer g o hnp]
    exact upsert_associations_lt _ _ _ hp

theorem beacon_touches_one_node_witness :
    ∃ v, (addNodeFromBeacon 2 (run 2 (cafeScenario "" "" "" "" "" "" "" 0 0 0))
        { ptype := "MgmtBeacon", ssid := "Cafe" }).1.get "Cafe" = some v ∧
      ((addNodeFromBeacon 2 (run 2 (cafeScenario "" "" "" "" "" "" "" 0 0 0))
        { ptype := "MgmtBeacon", ssid := "Cafe" }).1.heap 0).associations =
        ((run 2 (cafeScenario "" "" "" "" "" "" "" 0 0 0)).heap 0).associations :=
  (beacon_touches_one_node 2 (run 2 (cafeScenario "" "" "" "" "" "" "" 0 0 0))
    { ptype := "MgmtBeacon", ssid := "Cafe" } rfl).imp
    (fun _ h => ⟨h.1, h.2.2.2
      (fun p hp => by
        have h0 : (run 2 (cafeScenario "" "" "" "" "" "" "" 0 0 0)).get "Cafe" = some 0 := by
          decide
        cases h0.symm.trans hp
        decide) 0 (by decide)⟩)

/-- C15: for every graph and every observation, the working node is stored under
the resolved identity after the call; if it is classified "MgmtProbeReq" its `ssid`
is the empty string after the call; if it is not, its `ssid` is what it was before
the call when the node was found, and the network name of the observation when the
node was just inserted. -/
theorem ssid_cleared (pBuffer : Nat) (g : NodeList) (o : BeaconNode) :
    (addNodeFromBeacon pBuffer g o).1.get (createNodeFromBeacon pBuffer o).knownAs =
      some (upsert g o (createNodeFromBeacon pBuffer o)).2 ∧
    (((upsert g o (createNodeFromBeacon pBuffer o)).1.heap
        (upsert g o (createNodeFromBeacon pBuffer o)).2).nodeType = "MgmtProbeReq" →
      ((addNodeFromBeacon pBuffer g o).1.heap
        (upsert g o (createNodeFromBeacon pBuffer o)).2).ssid = "") ∧
    (((upsert g o (createNodeFromBeacon pBuffer o)).1.heap
        (upsert g o (createNodeFromBeacon pBuffer o)).2).nodeType ≠ "MgmtProbeReq" →
      (∀ p, g.get (createNodeFromBeacon pBuffer o).knownAs = some p →
        p = (upsert g o (createNodeFromBeacon pBuffer o)).2 ∧
        ((addNodeFromBeacon pBuffer g o).1.heap p).ssid = (g.heap p).ssid) ∧
      (g.get (createNodeFromBeacon pBuffer o).knownAs = none →
        ((addNodeFromBeacon pBuffer g o).1.heap
          (upsert g o (createNodeFromBeacon pBuffer o)).2).ssid = o.ssid)) := by
  refine ⟨?_, ?_, ?_⟩
  · rw [addNodeFromBeacon_eq]
    apply associate_get_some
    rw [upsert_get]; simp
  · intro hpr
    rw [addNodeFromBeacon_eq, associate_probe hpr]
    simp
  · intro hnp
    rw [addNodeFromBeacon_of_not_probe pBuffer g o hnp]
    constructor
    · intro p hp
      rw [upsert_found hp]
      simp
    · intro hnone
      rw [upsert_new hnone]
      simp [createNodeFromBeacon_ssid]

theorem ssid_cleared_witness :
    ((addNodeFromBeacon 2 (run 2 [])
        { ptype := "MgmtProbeReq", transmitter := "AA:BB", ssid := "Home" }).1.heap 0).ssid = "" ∧
    ((addNodeFromBeacon 2 (run 2 [])
        { ptype := "MgmtBeacon", ssid := "Home" }).1.heap 0).ssid = "Home" :=
  ⟨(ssid_cleared 2 (run 2 [])
      { ptype := "MgmtProbeReq", transmitter := "AA:BB", ssid := "Home" }).2.1 (by decide),
   ((ssid_cleared 2 (run 2 []) { ptype := "MgmtBeacon", ssid := "Home" }).2.2
      (by decide)).2 (by decide)⟩

/-- C16: for every graph and every observation, `addNodeFromBeacon` keeps every key
at its node, adds no key other than the resolved identity and the probed network
name, and leaves every object other than the working node and the association
target as it was; when the working node is not classified "MgmtProbeReq" there is
no target, and every object other than the working node is as it was. -/
theorem addNodeFromBeacon_frame (pBuffer : Nat) (g : NodeList) (o : BeaconNode) :
    (∀ k p, g.get k = some p → (addNodeFromBeacon pBuffer g o).1.get k = some p) ∧
    (∀ k, g.get k = none → (addNodeFromBeacon pBuffer g o).1.get k ≠ none →
      k = (createNodeFromBeacon pBuffer o).knownAs ∨ k = o.ssid) ∧
    (∀ p, p ≠ (upsert g o (createNodeFromBeacon pBuffer o)).2 →
      p ≠ (probeTarget (upsert g o (createNodeFromBeacon pBuffer o)).1
        (createNodeFromBeacon pBuffer o)).2 →
      (addNodeFromBeacon pBuffer g o).1.heap p = g.heap p) ∧
    (((upsert g o (createNodeFromBeacon pBuffer o)).1.heap
        (upsert g o (createNodeFromBeacon pBuffer o)).2).nodeType ≠ "MgmtProbeReq" →
      ∀ p, p ≠ (upsert g o (createNodeFromBeacon pBuffer o)).2 →
        (addNodeFromBeacon pBuffer g o).1.heap p = g.heap p) := by
  refine ⟨fun k p h => addNodeFromBeacon_get_some pBuffer g o h, ?_, ?_, ?_⟩
  · intro k hnone hsome
    rw [addNodeFromBeacon_eq] at hsome
    rcases associate_get (upsert g o (createNodeFromBeacon pBuffer o)).1
      (upsert g o (createNodeFromBeacon pBuffer o)).2 (createNodeFromBeacon pBuffer o) k with
      he | ⟨he, _⟩
    · rw [he, upsert_get] at hsome
      by_cases hk : k = (createNodeFromBeacon pBuffer o).knownAs
      · left; exact hk
      · rw [if_neg hk, hnone] at hsome; exact absurd rfl hsome
    · right; rw [he, createNodeFromBeacon_ssid]
  · intro p hv ht
    rw [addNodeFromBeacon_eq, associate_heap_ne _ _ _ hv ht, upsert_heap_ne _ _ _ hv]
  · intro hnp p hv
    rw [addNodeFromBeacon_of_not_probe pBuffer g o hnp, upsert_heap_ne _ _ _ hv]

theorem addNodeFromBeacon_frame_witness :
    (addNodeFromBeacon 2 (run 2 (cafeScenario "" "" "" "" "" "" "" 0 0 0))
        { ptype := "MgmtProbeReq", transmitter := "CC:DD", ssid := "Home" }).1.get "Cafe"
      = some 0 ∧
    (addNodeFromBeacon 2 (run 2 (cafeScenario "" "" "" "" "" "" "" 0 0 0))
        { ptype := "MgmtProbeReq", transmitter := "CC:DD", ssid := "Home" }).1.heap 1 =
      (run 2 (cafeScenario "" "" "" "" "" "" "" 0 0 0)).heap 1 :=
  ⟨(addNodeFromBeacon_frame 2 (run 2 (cafeScenario "" "" "" "" "" "" "" 0 0 0))
      { ptype := "MgmtProbeReq", transmitter := "CC:DD", ssid := "Home" }).1 "Cafe" 0
      (by decide),
   (addNodeFromBeacon_frame 2 (run 2 (cafeScenario "" "" "" "" "" "" "" 0 0 0))
      { ptype := "MgmtProbeReq", transmitter := "CC:DD", ssid := "Home" }).2.2.1 1
      (by decide) (by decide)⟩

theorem lastN_replicate_append {α : Type} (c : Nat) (z : α) (S : List α) :
    lastN c (List.replicate c z ++ S) =
      List.replicate (c - min S.length c) z ++ lastN (min S.length c) S := by
  unfold lastN
  rw [List.length_append, List.length_replicate, List.drop_append_eq_append_drop,
    List.length_replicate, List.drop_replicate]
  by_cases h : S.length ≤ c
  · have e1 : c + S.length - c = S.length := by omega
    have e2 : min S.length c = S.length := Nat.min_eq_left h
    rw [e1, e2]
    have e3 : S.length - c = 0 := by omega
    simp [e3]
  · have hlt : c < S.length := by omega
    have e1 : c + S.length - c = S.length := by omega
    have e2 : min S.length c = c := Nat.min_eq_right (by omega)
    rw [e1, e2]
    have e3 : c - S.length = 0 := by omega
    simp [e3]

/-- C17: in every graph reachable from the empty graph, the node stored under a key
`k` has `knownAs = k`; the node stored under a key stays the same object through
every later call; two stored nodes are the same object exactly when they have the
same `knownAs`, so that the pointer test of `containsAssociation` is the test
whether the identity of `b` is among the identities of the associations of `a`. -/
theorem key_identity_consistent (pBuffer : Nat) (obs : List BeaconNode) :
    (∀ k p, (run pBuffer obs).get k = some p → ((run pBuffer obs).heap p).knownAs = k) ∧
    (∀ (post : List BeaconNode) k p, (run pBuffer obs).get k = some p →
      (run pBuffer (obs ++ post)).get k = some p) ∧
    (∀ ka kb a b, (run pBuffer obs).get ka = some a → (run pBuffer obs).get kb = some b →
      (a = b ↔ ((run pBuffer obs).heap a).knownAs = ((run pBuffer obs).heap b).knownAs)) ∧
    (∀ ka kb a b, (run pBuffer obs).get ka = some a → (run pBuffer obs).get kb = some b →
      (containsAssociation (run pBuffer obs) a b = true ↔
        ((run pBuffer obs).heap b).knownAs ∈
          ((run pBuffer obs).heap a).associations.map
            (fun q => ((run pBuffer obs).heap q).knownAs))) := by
  have hwf := wf_run pBuffer obs
  have hinj : ∀ a b, a < (run pBuffer obs).next → b < (run pBuffer obs).next →
      ((run pBuffer obs).heap a).knownAs = ((run pBuffer obs).heap b).knownAs → a = b := by
    intro a b ha hb he
    have h1 := hwf.stored a ha
    have h2 := hwf.stored b hb
    rw [he, h2] at h1
    exact (Option.some.inj h1).symm
  refine ⟨fun k p h => (hwf.key_ok k p h).2, ?_, ?_, ?_⟩
  · intro post k p h
    exact (run_keeps_static pBuffer obs post h).1
  · intro ka kb a b ha hb
    constructor
    · intro he; rw [he]
    · exact hinj a b (hwf.key_ok ka a ha).1 (hwf.key_ok kb b hb).1
  · intro ka kb a b ha hb
    rw [containsAssociation_iff, List.mem_map]
    constructor
    · intro hm; exact ⟨b, hm, rfl⟩
    · rintro ⟨q, hq, he⟩
      have hqlt := (hwf.assoc_ok a (hwf.key_ok ka a ha).1 q hq).1
      rw [← hinj q b hqlt (hwf.key_ok kb b hb).1 he]
      exact hq

theorem key_identity_consistent_witness :
    ((run 2 (cafeScenario "" "" "" "" "" "" "" 0 0 0)).heap 1).knownAs = "AA:BB" ∧
    (run 2 (cafeScenario "" "" "" "" "" "" "" 0 0 0 ++
      [{ ptype := "MgmtBeacon", ssid := "Home" }])).get "AA:BB" = some 1 :=
  ⟨(key_identity_consistent 2 (cafeScenario "" "" "" "" "" "" "" 0 0 0)).1 "AA:BB" 1
      (by decide),
   (key_identity_consistent 2 (cafeScenario "" "" "" "" "" "" "" 0 0 0)).2.1
      [{ ptype := "MgmtBeacon", ssid := "Home" }] "AA:BB" 1 (by decide)⟩

/-- C18: for a capacity `pBuffer ≥ 1`, a node that was inserted from an observation
and has been the working node of `k` observations in total (`k ≥ 1`, as it was
inserted from one) has a `strength` of length exactly `pBuffer`: `pBuffer - min k pBuffer` zeros followed by the last
`min k pBuffer` signal strengths pushed, in push order; and likewise `seen`, padded
with empty strings. -/
theorem history_prefilled (pBuffer : Nat) (hp : 1 ≤ pBuffer) (obs : List BeaconNode)
    (id : String) (k : Nat)
    (hcount : (observationsOf pBuffer id obs).length = k)
    (hins : InsertedFromObservation pBuffer obs id) :
    ∃ n, (run pBuffer obs).node id = some n ∧
      n.strength = List.replicate (pBuffer - min k pBuffer) 0 ++
        lastN (min k pBuffer) (strengthsOf pBuffer id obs) ∧
      n.seen = List.replicate (pBuffer - min k pBuffer) "" ++
        lastN (min k pBuffer) (timesOf pBuffer id obs) ∧
      n.strength.length = pBuffer ∧ n.seen.length = pBuffer ∧
      n.strength.take (pBuffer - min k pBuffer) =
        List.replicate (pBuffer - min k pBuffer) 0 ∧
      n.strength.drop (pBuffer - min k pBuffer) =
        lastN (min k pBuffer) (strengthsOf pBuffer id obs) := by
  obtain ⟨p, hget, hb⟩ := inserted_bssid hins
  obtain ⟨_, e1, e2⟩ := (buffers_run pBuffer obs id p hget).2 hb
  have hmax : max pBuffer 1 = pBuffer := by omega
  have hS : (strengthsOf pBuffer id obs).length = k := by simp [strengthsOf, hcount]
  have hT : (timesOf pBuffer id obs).length = k := by simp [timesOf, hcount]
  rw [hmax, lastN_replicate_append, hS] at e1
  rw [hmax, lastN_replicate_append, hT] at e2
  refine ⟨(run pBuffer obs).heap p, by simp [NodeList.node, hget], e1, e2, ?_, ?_, ?_, ?_⟩
  · rw [e1, List.length_append, List.length_replicate, lastN_length, hS]; omega
  · rw [e2, List.length_append, List.length_replicate, lastN_length, hT]; omega
  · rw [e1, List.take_left' (by simp)]
  · rw [e1, List.drop_left' (by simp)]

theorem history_prefilled_witness :
    ∃ n, (run 3 (cafeScenario "t1" "" "" "t2" "" "t3" "" (-40) (-50) (-60))).node "AA:BB"
        = some n ∧ n.strength = [0, -50, -60] ∧ n.seen = ["", "t2", "t3"] := by
  obtain ⟨n, h1, e1, e2, _⟩ := history_prefilled 3 (by decide)
    (cafeScenario "t1" "" "" "t2" "" "t3" "" (-40) (-50) (-60)) "AA:BB" 2 (by decide)
    ⟨[{ ptype := "MgmtBeacon", ssid := "Cafe", timestamp := "t1", sigStrength := -40 }],
     { ptype := "MgmtProbeReq", transmitter := "AA:BB", ssid := "Cafe", timestamp := "t2",
       sigStrength := -50 },
     [{ ptype := "MgmtProbeReq", transmitter := "AA:BB", ssid := "Cafe", timestamp := "t3",
        sigStrength := -60 }], rfl, by decide, by decide⟩
  exact ⟨n, h1, e1.trans (by decide), e2.trans (by decide)⟩

/-- C19: for every capacity, a node first inserted as a skeleton association target
has empty `strength` and `seen` as long as no observation has had it as the working
node; once it has been the working node of at least one observation, each buffer
has length exactly 1 and holds the signal strength and the timestamp of the most
recent of these observations. -/
theorem history_of_skeleton (pBuffer : Nat) (obs : List BeaconNode) (id : String)
    (hsk : InsertedAsSkeleton pBuffer obs id) :
    ∃ n, (run pBuffer obs).node id = some n ∧
      (observationsOf pBuffer id obs = [] → n.strength = [] ∧ n.seen = []) ∧
      (∀ o, (observationsOf pBuffer id obs).getLast? = some o →
        n.strength = [o.sigStrength] ∧ n.seen = [o.timestamp] ∧
        n.strength.length = 1 ∧ n.seen.length = 1) := by
  obtain ⟨p, hget, hb⟩ := skeleton_bssid hsk
  obtain ⟨e1, e2⟩ := (buffers_run pBuffer obs id p hget).1 hb
  refine ⟨(run pBuffer obs).heap p, by simp [NodeList.node, hget], ?_, ?_⟩
  · intro he
    rw [e1, e2]
    simp [strengthsOf, timesOf, he, lastN]
  · intro o ho
    obtain ⟨l, hl⟩ : ∃ l, observationsOf pBuffer id obs = l ++ [o] := by
      rcases List.eq_nil_or_concat (observationsOf pBuffer id obs) with h | ⟨l, b, h⟩
      · rw [h] at ho; cases ho
      · rw [h, List.concat_eq_append] at ho ⊢
        simp at ho
        exact ⟨l, by rw [ho]⟩
    rw [e1, e2]
    simp [strengthsOf, timesOf, hl, lastN]

theorem history_of_skeleton_witness :
    ∃ n, (run 3 [{ ptype := "MgmtProbeReq", transmitter := "AA:BB", ssid := "Home" },
                 { ptype := "MgmtBeacon", ssid := "Home", sigStrength := 5, timestamp := "a" },
                 { ptype := "MgmtBeacon", ssid := "Home", sigStrength := 6, timestamp := "b" }]).node
        "Home" = some n ∧ n.strength = [6] ∧ n.seen = ["b"] := by
  obtain ⟨n, h1, _, h2⟩ := history_of_skeleton 3
    [{ ptype := "MgmtProbeReq", transmitter := "AA:BB", ssid := "Home" },
     { ptype := "MgmtBeacon", ssid := "Home", sigStrength := 5, timestamp := "a" },
     { ptype := "MgmtBeacon", ssid := "Home", sigStrength := 6, timestamp := "b" }] "Home"
    ⟨[], { ptype := "MgmtProbeReq", transmitter := "AA:BB", ssid := "Home" },
     [{ ptype := "MgmtBeacon", ssid := "Home", sigStrength := 5, timestamp := "a" },
      { ptype := "MgmtBeacon", ssid := "Home", sigStrength := 6, timestamp := "b" }],
     rfl, by decide, by decide, by decide⟩
  obtain ⟨e1, e2, _⟩ := h2
    { ptype := "MgmtBeacon", ssid := "Home", sigStrength := 6, timestamp := "b" } (by decide)
  exact ⟨n, h1, e1, e2⟩

end WifiPrint
